import Mathlib

/-!
Verification development for the rdoc C++ header parser.

The Rust source (src/parser/...) is built on nom parsers over `&str`.
We shallowly embed it over `List Char`:

* a nom parser `&str -> IResult<&str, T, VerboseError<&str>>` becomes a
  function `List Char → PRes T`;
* `PRes.ok rest v` models `Ok((rest, v))`, `PRes.err` models
  `Err(nom::Err::Error(_))` (the only error kind this code produces:
  there is no `cut`/`Failure` anywhere in the source);
* `PRes.crash` models a Rust panic (`unreachable!()` / `unimplemented!()`);
* recursive parsers take an explicit fuel argument (structural recursion);
  `PRes.out` is returned on fuel exhaustion.  Entry points pass
  `input.length + 1` which is shown (or evident from the per-iteration
  consumption) to be sufficient.
* Rust's Unicode `char::is_alphanumeric`/`char::is_whitespace` are modelled
  with Lean's ASCII `Char.isAlphanum` / explicit ASCII whitespace; all
  concrete inputs in this file are ASCII, where the two agree.
-/

inductive PRes (α : Type) : Type where
  | ok : List Char → α → PRes α
  | err : PRes α
  | crash : PRes α
  | out : PRes α
deriving DecidableEq

namespace PRes

def pmap (f : α → β) : PRes α → PRes β
  | .ok r v => .ok r (f v)
  | .err => .err
  | .crash => .crash
  | .out => .out

def isOk : PRes α → Prop
  | .ok _ _ => True
  | _ => False

end PRes

/-- nom `multispace0/1` whitespace set: space, tab, carriage return, line feed. -/
def isSpaceChar (c : Char) : Bool :=
  c = ' ' || c = '\t' || c = '\n' || c = '\r'

/-- `multispace0`: drop leading whitespace (never fails). -/
def ms0 (s : List Char) : List Char := s.dropWhile isSpaceChar

/-- `multispace1`: at least one whitespace character. -/
def ms1 (s : List Char) : PRes Unit :=
  match s with
  | c :: r => if isSpaceChar c then .ok (ms0 r) () else .err
  | [] => .err

/-- `nom::bytes::complete::tag`. -/
def tagP (pat : List Char) (s : List Char) : PRes (List Char) :=
  if pat.isPrefixOf s then .ok (s.drop pat.length) pat else .err

/-- `nom::character::complete::char`. -/
def charP (c : Char) (s : List Char) : PRes Char :=
  match s with
  | x :: r => if x = c then .ok r c else .err
  | [] => .err

/-- `nom::bytes::complete::take_while1`. -/
def take_while1 (f : Char → Bool) (s : List Char) : PRes (List Char) :=
  let t := s.takeWhile f
  if t.isEmpty then .err else .ok (s.dropWhile f) t

/-- `nom::combinator::opt`: backtrack on a recoverable error. -/
def optP (p : List Char → PRes α) (s : List Char) : PRes (Option α) :=
  match p s with
  | .ok r v => .ok r (some v)
  | .err => .ok s none
  | .crash => .crash
  | .out => .out

/-- `nom::branch::alt` on two alternatives (chained for more). -/
def altP (p q : List Char → PRes α) (s : List Char) : PRes α :=
  match p s with
  | .err => q s
  | r => r

/-- `nom::multi::many0`, with nom's infinite-loop check: an element that
succeeds without consuming input makes the whole `many0` fail. -/
def many0 (p : List Char → PRes α) : Nat → List Char → PRes (List α)
  | 0, _ => .out
  | fuel + 1, s =>
    match p s with
    | .ok s1 v =>
      if s1.length = s.length then .err
      else
        match many0 p fuel s1 with
        | .ok s2 vs => .ok s2 (v :: vs)
        | e => e
    | .err => .ok s []
    | .crash => .crash
    | .out => .out

/-- `nom::multi::many1`: one required element, then the `many0` loop. -/
def many1 (p : List Char → PRes α) (fuel : Nat) (s : List Char) : PRes (List α) :=
  match p s with
  | .ok s1 v => PRes.pmap (v :: ·) (many0 p fuel s1)
  | .err => .err
  | .crash => .crash
  | .out => .out

/-- Loop of `nom::multi::separated_list0` after the first element.
nom's infinite-loop check fires when the separator succeeds without
consuming input. -/
def sep_list0_loop (sep : List Char → PRes β) (p : List Char → PRes α) :
    Nat → List Char → List α → PRes (List α)
  | 0, _, _ => .out
  | fuel + 1, s, acc =>
    match sep s with
    | .err => .ok s acc
    | .crash => .crash
    | .out => .out
    | .ok s1 _ =>
      if s1.length = s.length then .err
      else
        match p s1 with
        | .err => .ok s acc
        | .crash => .crash
        | .out => .out
        | .ok s2 v => sep_list0_loop sep p fuel s2 (acc ++ [v])

/-- `nom::multi::separated_list0`. -/
def sep_list0 (sep : List Char → PRes β) (p : List Char → PRes α)
    (fuel : Nat) (s : List Char) : PRes (List α) :=
  match p s with
  | .err => .ok s []
  | .crash => .crash
  | .out => .out
  | .ok s1 v => sep_list0_loop sep p fuel s1 [v]

/-- `nom::multi::separated_list1`. -/
def sep_list1 (sep : List Char → PRes β) (p : List Char → PRes α)
    (fuel : Nat) (s : List Char) : PRes (List α) :=
  match p s with
  | .err => .err
  | .crash => .crash
  | .out => .out
  | .ok s1 v => sep_list0_loop sep p fuel s1 [v]

/-- `nom::multi::many_till`: at each iteration the terminator is tried
first; the terminator's value is discarded by every caller in the source. -/
def many_till (p : List Char → PRes α) (term : List Char → PRes β) :
    Nat → List Char → PRes (List α)
  | 0, _ => .out
  | fuel + 1, s =>
    match term s with
    | .ok s1 _ => .ok s1 []
    | .crash => .crash
    | .out => .out
    | .err =>
      match p s with
      | .ok s1 v => PRes.pmap (v :: ·) (many_till p term fuel s1)
      | .err => .err
      | .crash => .crash
      | .out => .out

/-! ## Type expression engine (src/parser/cpp/ctype.rs) -/

/-- `CType` from ctype.rs (spans become `List Char`). -/
inductive CType : Type where
  | Auto : CType
  | Path : List (List Char) → CType
  | Generic : CType → List CType → CType
  | Function : CType → List CType → CType
  | Pointer : CType → CType
  | Reference : CType → CType
  | MemberAccess : CType → List Char → CType
  | Const : CType → CType

/-- ctype.rs `is_ident_char`: alphanumeric or underscore. -/
def is_ident_char (c : Char) : Bool := c.isAlphanum || c = '_'

/-- ctype.rs `identifier`. -/
def identifier (s : List Char) : PRes (List Char) := take_while1 is_ident_char s

/-- `opt(preceded(multispace0, tag("const")))`: returns the input after the
tag when it matches (otherwise the untouched input) plus whether it matched. -/
def opt_const_tag (s : List Char) : List Char × Bool :=
  let t := ms0 s
  if ("const".toList).isPrefixOf t then (t.drop 5, true) else (s, false)

/-- ctype.rs `cpp_ident`: optional `class`/`typename` keyword, then an
identifier, each preceded by optional whitespace. -/
def cpp_ident (s : List Char) : PRes (List Char) :=
  let t := ms0 s
  let s1 :=
    if ("class".toList).isPrefixOf t then t.drop 5
    else if ("typename".toList).isPrefixOf t then t.drop 8
    else s
  identifier (ms0 s1)

/-- ctype.rs `parse_type_atom_inner`: `separated_list0(tag("::"), cpp_ident)`,
collapsing a lone `auto` to `Auto`. -/
def parse_type_atom_inner (fuel : Nat) (s : List Char) : PRes CType :=
  PRes.pmap
    (fun segs =>
      match segs with
      | [a] => if a = "auto".toList then CType.Auto else CType.Path segs
      | _ => CType.Path segs)
    (sep_list0 (tagP ("::".toList)) cpp_ident fuel s)

/-- ctype.rs `parse_type_atom`: optional `const` before and after the atom,
each wrapping once in `Const`. -/
def parse_type_atom (fuel : Nat) (s : List Char) : PRes CType :=
  let (s1, constBefore) := opt_const_tag s
  match parse_type_atom_inner fuel s1 with
  | .ok s2 base =>
    let (s3, constAfter) := opt_const_tag s2
    let t1 := if constBefore then CType.Const base else base
    let t2 := if constAfter then CType.Const t1 else t1
    .ok s3 t2
  | e => e

/-- ctype.rs `parse_member_access`: `many0(preceded(tag("::"), identifier))`,
folding each member into `MemberAccess`. -/
def parse_member_access (fuel : Nat) (s : List Char) (ty : CType) : PRes CType :=
  match many0 (fun t =>
      match tagP ("::".toList) t with
      | .ok r _ => identifier r
      | .err => .err
      | .crash => .crash
      | .out => .out) fuel s with
  | .ok r members => .ok r (members.foldl (fun a m => CType.MemberAccess a m) ty)
  | .err => .err
  | .crash => .crash
  | .out => .out

/-- The `match s { '*' => Pointer, '&' => Reference, _ => unreachable!() }`
body of ctype.rs `parse_ptrs_refs`; `none` models the `unreachable!()` panic. -/
def apply_suffix (a : CType) (c : Char) : Option CType :=
  if c = '*' then some (CType.Pointer a)
  else if c = '&' then some (CType.Reference a)
  else none

def apply_suffixes (a : CType) : List Char → Option CType
  | [] => some a
  | c :: cs =>
    match apply_suffix a c with
    | some a2 => apply_suffixes a2 cs
    | none => none

/-- ctype.rs `parse_ptrs_refs`: `many0(preceded(multispace0, alt((char('*'),
char('&')))))`, wrapping left-to-right.  The suffix characters come from the
`alt`, so the `unreachable!()` (modelled by `apply_suffixes` returning `none`,
mapped to `.crash`) is never hit. -/
def parse_ptrs_refs (fuel : Nat) (ty : CType) (s : List Char) : PRes CType :=
  match many0 (fun t =>
      match ms0 t with
      | c :: r => if c = '*' || c = '&' then .ok r c else .err
      | [] => .err) fuel s with
  | .ok r suffixes =>
    match apply_suffixes ty suffixes with
    | some ty2 => .ok r ty2
    | none => .crash
  | .err => .err
  | .crash => .crash
  | .out => .out

/-- ctype.rs `parse_generics`, parameterized by the nested-type parser
(`parse_type` with one unit less fuel).  `opt(delimited(ws '<',
separated_list0(ws ',', ws parse_type), ws '>'))`; on failure of the
delimited group the input is restored and the base type returned. -/
def parse_generics (pt : List Char → PRes CType) (fuel : Nat)
    (s : List Char) (ty : CType) : PRes CType :=
  match ms0 s with
  | c :: t =>
    if c = '<' then
      match sep_list0 (fun u => charP ',' (ms0 u)) (fun u => pt (ms0 u)) fuel t with
      | .ok r args =>
        (match ms0 r with
         | c2 :: r2 => if c2 = '>' then .ok r2 (CType.Generic ty args) else .ok s ty
         | [] => .ok s ty)
      | .err => .ok s ty
      | .crash => .crash
      | .out => .out
    else .ok s ty
  | [] => .ok s ty

/-- ctype.rs `parse_function`, parameterized by the nested-type parser.
Each parameter is a type optionally followed by an identifier (discarded). -/
def parse_function (pt : List Char → PRes CType) (fuel : Nat)
    (s : List Char) (ty : CType) : PRes CType :=
  match ms0 s with
  | c :: t =>
    if c = '(' then
      match sep_list0 (fun u => charP ',' (ms0 u))
          (fun u =>
            match pt (ms0 u) with
            | .ok r tyv =>
              if (ms0 r).takeWhile is_ident_char = [] then .ok r tyv
              else .ok ((ms0 r).dropWhile is_ident_char) tyv
            | .err => .err
            | .crash => .crash
            | .out => .out) fuel t with
      | .ok r params =>
        (match ms0 r with
         | c2 :: r2 => if c2 = ')' then .ok r2 (CType.Function ty params) else .ok s ty
         | [] => .ok s ty)
      | .err => .ok s ty
      | .crash => .crash
      | .out => .out
    else .ok s ty
  | [] => .ok s ty

/-- ctype.rs `parse_type`: leading `const`, atom, generics, member access,
function parameters, trailing `const` (applied once if either side matched),
then pointer/reference suffixes. -/
def parse_type : Nat → List Char → PRes CType
  | 0, _ => .out
  | fuel + 1, s =>
    let (s1, leadingConst) := opt_const_tag s
    match parse_type_atom (fuel + 1) s1 with
    | .ok s2 base =>
      match parse_generics (fun u => parse_type fuel u) fuel s2 base with
      | .ok s3 ty1 =>
        match parse_member_access (fuel + 1) s3 ty1 with
        | .ok s4 ty2 =>
          match parse_function (fun u => parse_type fuel u) fuel s4 ty2 with
          | .ok s5 ty3 =>
            let (s6, trailingConst) := opt_const_tag s5
            let ty4 := if leadingConst || trailingConst then CType.Const ty3 else ty3
            parse_ptrs_refs (fuel + 1) ty4 s6
          | e => e
        | e => e
      | e => e
    | e => e

/-- ctype.rs `parse_cpp_type`, the public entry point (`parse_type`). -/
def parse_cpp_type (s : List Char) : PRes CType := parse_type (s.length + 1) s

example : parse_cpp_type ("T**".toList) =
    .ok [] (CType.Pointer (CType.Pointer (CType.Path ["T".toList]))) := by rfl

example : parse_cpp_type ("const int&".toList) =
    .ok [] (CType.Reference (CType.Const (CType.Path ["int".toList]))) := by rfl

/-! ## Comment recognizer (src/parser/generic/comment.rs, CommentType = text) -/

/-- comment.rs `strip_indent`: strip leading whitespace, `*` and `/`. -/
def strip_indent (l : List Char) : List Char :=
  l.dropWhile (fun c => isSpaceChar c || c = '*' || c = '/')

/-- nom `not_line_ending` (complete): everything before `\r\n` or `\n`;
a bare `\r` not followed by `\n` is an error. -/
def not_line_ending (s : List Char) : PRes (List Char) :=
  let l := s.takeWhile (fun c => !(c = '\n') && !(c = '\r'))
  let r := s.dropWhile (fun c => !(c = '\n') && !(c = '\r'))
  match r with
  | '\r' :: rest =>
    match rest with
    | '\n' :: _ => .ok r l
    | _ => .err
  | _ => .ok r l

/-- `opt(line_ending)`: consume `\n` or `\r\n` if present. -/
def opt_line_ending (s : List Char) : List Char :=
  match s with
  | '\n' :: r => r
  | '\r' :: '\n' :: r => r
  | _ => s

/-- comment.rs `parse_one_line_comment`: `///` or `//`, the line, an optional
line ending; marker and leading whitespace/`*`/`/` stripped. -/
def parse_one_line_comment (s : List Char) : PRes (List Char) :=
  let go : List Char → PRes (List Char) := fun t =>
    match not_line_ending t with
    | .ok r line => .ok (opt_line_ending r) (strip_indent line)
    | .err => .err
    | .crash => .crash
    | .out => .out
  if ("///".toList).isPrefixOf s then go (s.drop 3)
  else if ("//".toList).isPrefixOf s then go (s.drop 2)
  else .err

/-- Rust `str::lines` helper: drop one trailing `\r` of a line. -/
def strip_cr (l : List Char) : List Char :=
  if l.getLast? = some '\r' then l.dropLast else l

theorem length_dropWhile_le (p : Char → Bool) (s : List Char) :
    (s.dropWhile p).length ≤ s.length := by
  induction s with
  | nil => simp
  | cons c t ih =>
    by_cases h : p c
    · simp only [List.dropWhile, h]
      exact Nat.le_trans ih (Nat.le_succ _)
    · simp [List.dropWhile, h]

/-- Rust `str::lines`: split on `\n`, dropping a trailing `\r` per line;
a trailing newline yields no final empty line; empty input has no lines. -/
def lines_go (s : List Char) : List (List Char) :=
  match h : s.dropWhile (fun c => !(c = '\n')) with
  | [] => [strip_cr (s.takeWhile (fun c => !(c = '\n')))]
  | _ :: t =>
    strip_cr (s.takeWhile (fun c => !(c = '\n'))) ::
      (if t.isEmpty then [] else lines_go t)
termination_by s.length
decreasing_by
  have h1 : (s.dropWhile (fun c => !(c = '\n'))).length ≤ s.length :=
    length_dropWhile_le _ _
  rw [h] at h1
  simp at h1
  omega

def lines_of (s : List Char) : List (List Char) :=
  if s.isEmpty then [] else lines_go s

/-- Find the first occurrence of `pat`: returns the part before it and the
suffix starting at `pat` (the model of nom `take_until`). -/
def split_until (pat : List Char) : List Char → Option (List Char × List Char)
  | [] => if pat.isPrefixOf [] then some ([], []) else none
  | c :: t =>
    if pat.isPrefixOf (c :: t) then some ([], c :: t)
    else (split_until pat t).map (fun p => (c :: p.1, p.2))

/-- A line is blank after `trim` (whitespace only). -/
def is_blank (l : List Char) : Bool := l.all isSpaceChar

/-- comment.rs `parse_multiline_comment`: `/* ... */`, lines stripped,
blank lines dropped. -/
def parse_multiline_comment (s : List Char) : PRes (List (List Char)) :=
  if ("/*".toList).isPrefixOf s then
    match split_until ("*/".toList) (s.drop 2) with
    | some (content, r) =>
      .ok (r.drop 2) (((lines_of content).map strip_indent).filter (fun l => !is_blank l))
    | none => .err
  else .err

def joinNl (ls : List (List Char)) : List Char := List.intercalate ['\n'] ls

/-- comment.rs `parse_comment` (CommentType = joined text):
`alt((many1(parse_one_line_comment), parse_multiline_comment))`, lines
joined with `\n`. -/
def parse_comment (s : List Char) : PRes (List Char) :=
  match many1 parse_one_line_comment (s.length + 1) s with
  | .ok r ls => .ok r (joinNl ls)
  | .err =>
    match parse_multiline_comment s with
    | .ok r ls => .ok r (joinNl ls)
    | .err => .err
    | .crash => .crash
    | .out => .out
  | .crash => .crash
  | .out => .out

/-! ## Annotation extension point (src/parser/generic/annotation.rs) -/

/-- `NoAnnotation` (plain-C++ dialect fulfillment). -/
structure NoAnnot : Type where
deriving DecidableEq

/-- annotation.rs `NoAnnotation::parse`: `Ok(("", NoAnnotation))` — it
succeeds on every input and returns the EMPTY string as remaining input,
regardless of the input it was given. -/
def NoAnnot_parse (_ : List Char) : PRes NoAnnot := .ok [] ⟨⟩

/-- `opt(many0(|i| AnnotationType::parse(i)))` as it appears at the top of
parse_method/parse_member/parse_class, instantiated with `NoAnnotation`. -/
def opt_many0_no_annot (s : List Char) : PRes (Option (List NoAnnot)) :=
  optP (fun t => many0 NoAnnot_parse (t.length + 1) t) s

/-! ## mod.rs string helpers (parse_str / parse_ws_str) -/

/-- mod.rs `is_ident_char`: alphanumeric, underscore or hyphen. -/
def ext_ident_char (c : Char) : Bool := c.isAlphanum || c = '_' || c = '-'

/-- Body of nom `escaped(extended_identifier, '\\', one_of("\"n\\"))`
(complete): runs of identifier characters interleaved with escapes;
empty input succeeds with an empty match; no progress at offset 0 fails. -/
def parse_str_go (orig : List Char) : Nat → List Char → PRes (List Char)
  | 0, _ => .out
  | fuel + 1, i =>
    match i with
    | [] => .ok [] orig
    | c :: rest =>
      if ext_ident_char c then
        let t := i.dropWhile ext_ident_char
        if t.isEmpty then .ok [] orig else parse_str_go orig fuel t
      else if c = '\\' then
        match rest with
        | [] => .err
        | e :: rest2 =>
          if e = '"' || e = 'n' || e = '\\' then
            if rest2.isEmpty then .ok [] orig else parse_str_go orig fuel rest2
          else .err
      else
        if i.length = orig.length then .err
        else .ok i (orig.take (orig.length - i.length))

/-- mod.rs `parse_str`. -/
def parse_str (s : List Char) : PRes (List Char) := parse_str_go s (s.length + 1) s

/-- mod.rs `parse_ws_str`: `ws(parse_str)` (whitespace on both sides). -/
def parse_ws_str (s : List Char) : PRes (List Char) :=
  match parse_str (ms0 s) with
  | .ok r v => .ok (ms0 r) v
  | .err => .err
  | .crash => .crash
  | .out => .out

/-! ## Method parser data (src/parser/generic/method.rs) -/

inductive CppStorageQualifier : Type where
  | Inline | Constexpr | Explicit | Friend | Static | Virtual
deriving DecidableEq

inductive PostParamQualifier : Type where
  | Const | Noexcept | Override | Final
deriving DecidableEq

inductive SpecialMember : Type where
  | PureVirtual | Defaulted | Deleted
deriving DecidableEq

/-- method.rs `special_member`: `=` (with surrounding whitespace) followed by
one of the tags `0`, `default`, `deleted` (sic — the source writes
`tag("deleted")`, not C++'s `delete`). -/
def special_member (s : List Char) : PRes SpecialMember :=
  match charP '=' (ms0 s) with
  | .ok r _ =>
    let u := ms0 r
    if ("0".toList).isPrefixOf u then .ok (u.drop 1) .PureVirtual
    else if ("default".toList).isPrefixOf u then .ok (u.drop 7) .Defaulted
    else if ("deleted".toList).isPrefixOf u then .ok (u.drop 7) .Deleted
    else .err
  | .err => .err
  | .crash => .crash
  | .out => .out

/-- method.rs `method_identifier`: alphanumeric, `_` or `~`. -/
def method_identifier (s : List Char) : PRes (List Char) :=
  take_while1 (fun c => c.isAlphanum || c = '_' || c = '~') s

/-- method.rs `operator_name`: `operator` + a fixed catalogue of operator
tokens, tried in the source's order (so `operator+` matches before
`operator++` can). -/
def operator_name (s : List Char) : PRes (List Char) :=
  match tagP ("operator".toList) s with
  | .ok r _ =>
    let tryTags : List (List Char) :=
      [ "()".toList, "[]".toList, "->".toList, "~".toList, "+".toList,
        "-".toList, "*".toList, "/".toList, "%".toList, "^".toList,
        "&".toList, "|".toList, "!".toList, "=".toList, "<".toList,
        ">".toList, "++".toList, "--".toList,
        "<<".toList, ">>".toList, "==".toList, "!=".toList, "<=".toList,
        ">=".toList, "<=>".toList, "+=".toList, "-=".toList, "*=".toList,
        "/=".toList, "%=".toList, "^=".toList, "&=".toList, "|=".toList,
        ",".toList, "new".toList, "delete".toList ]
    match tryTags.find? (fun tg => tg.isPrefixOf r) with
    | some tg => .ok (r.drop tg.length) ("operator".toList ++ tg)
    | none => .err
  | .err => .err
  | .crash => .crash
  | .out => .out

/-- method.rs `method_name`: `~identifier`, an operator name, or a plain
identifier. -/
def method_name (s : List Char) : PRes (List Char) :=
  match s with
  | '~' :: r =>
    (match method_identifier r with
     | .ok r2 t => .ok r2 ('~' :: t)
     | .err => altP operator_name method_identifier s
     | .crash => .crash
     | .out => .out)
  | _ => altP operator_name method_identifier s

/-- method.rs `storage_qualifiers`: `many0(ws(alt(...)))` over the six
storage qualifier tags. -/
def storage_qualifiers (s : List Char) : PRes (List CppStorageQualifier) :=
  many0 (fun t =>
    let u := ms0 t
    let probe : Option (Nat × CppStorageQualifier) :=
      if ("inline".toList).isPrefixOf u then some (6, .Inline)
      else if ("constexpr".toList).isPrefixOf u then some (9, .Constexpr)
      else if ("explicit".toList).isPrefixOf u then some (8, .Explicit)
      else if ("friend".toList).isPrefixOf u then some (6, .Friend)
      else if ("static".toList).isPrefixOf u then some (6, .Static)
      else if ("virtual".toList).isPrefixOf u then some (7, .Virtual)
      else none
    match probe with
    | some (n, q) => .ok (ms0 (u.drop n)) q
    | none => .err) (s.length + 1) s

/-- method.rs `post_param_qualifiers`: `many0(delimited(multispace0,
alt(...), multispace0))` over the four post-parameter qualifier tags. -/
def post_param_qualifiers (s : List Char) : PRes (List PostParamQualifier) :=
  many0 (fun t =>
    let u := ms0 t
    let probe : Option (Nat × PostParamQualifier) :=
      if ("const".toList).isPrefixOf u then some (5, .Const)
      else if ("noexcept".toList).isPrefixOf u then some (8, .Noexcept)
      else if ("override".toList).isPrefixOf u then some (8, .Override)
      else if ("final".toList).isPrefixOf u then some (5, .Final)
      else none
    match probe with
    | some (n, q) => .ok (ms0 (u.drop n)) q
    | none => .err) (s.length + 1) s

/-- method.rs `method_trailing_return`: `opt(preceded(delimited(ms0, "->",
ms0), parse_cpp_type))`. -/
def method_trailing_return (s : List Char) : PRes (Option CType) :=
  let u := ms0 s
  if ("->".toList).isPrefixOf u then
    match parse_cpp_type (ms0 (u.drop 2)) with
    | .ok r ty => .ok r (some ty)
    | .err => .ok s none
    | .crash => .crash
    | .out => .out
  else .ok s none

/-- method.rs `member_initializer`: `take_while1` with the source's
predicate `c.is_alphanumeric() || c != ',' && c != '{' && c != '\n'`
(value trimmed; discarded by the caller). -/
def member_initializer (s : List Char) : PRes (List Char) :=
  take_while1 (fun c => c.isAlphanum || (!(c = ',') && !(c = '{') && !(c = '\n'))) s

/-- method.rs `member_initializer_list`: optional `:` followed by a
comma-separated list of raw initializers; the captured list is returned but
never modelled further. -/
def ws_comma (t : List Char) : PRes Char :=
  match charP ',' (ms0 t) with
  | .ok r v => .ok (ms0 r) v
  | .err => .err
  | .crash => .crash
  | .out => .out

def member_initializer_list (s : List Char) : PRes (List (List Char)) :=
  let u := ms0 s
  if (":".toList).isPrefixOf u then
    match sep_list0 ws_comma member_initializer ((u.drop 1).length + 1) (u.drop 1) with
    | .ok r ls => .ok r ls
    | .err => .ok s []
    | .crash => .crash
    | .out => .out
  else .ok s []

/-! ## cpp/method.rs: parameters and brace blocks -/

/-- `CppMethodParam` from cpp/method.rs. -/
structure CppMethodParam : Type where
  name : Option (List Char)
  ctype : CType
  default_value : Option CType

/-- cpp/method.rs `parse_brace_block` / `parse_brace_inner`: a balanced
`{...}` block, nested blocks recursed into, all content discarded.
The inner `many0(alt((parse_brace_block, take_till1(..), none_of("{}"))))`
loop stops at `{` of an unbalanced block, at `}`, or at end of input. -/
def parse_brace_inner_loop (blockP : List Char → PRes Unit) :
    Nat → List Char → PRes (List Char)
  | 0, _ => .out
  | f + 1, u =>
    match u with
    | '{' :: _ =>
      (match blockP u with
       | .ok u2 _ => parse_brace_inner_loop blockP f u2
       | .err => .ok u u  -- alt exhausted: the many0 loop ends here
       | .crash => .crash
       | .out => .out)
    | '}' :: _ => .ok u u
    | [] => .ok u u
    | _ =>
      -- take_till1(|c| c == '{' || c == '}')
      parse_brace_inner_loop blockP f (u.dropWhile (fun c => !(c = '{') && !(c = '}')))

def parse_brace_block : Nat → List Char → PRes Unit
  | 0, _ => .out
  | fuel + 1, s =>
    match s with
    | '{' :: t =>
      -- parse_brace_inner loop over t, then the closing '}'
      match parse_brace_inner_loop (fun w => parse_brace_block fuel w) (t.length + 1) t with
      | .ok _ u =>
        (match u with
         | '}' :: r => .ok r ()
         | _ => .err)
      | .err => .err
      | .crash => .crash
      | .out => .out
    | _ => .err

/-! ## Template headers (src/parser/cpp/template.rs) -/

/-- template.rs `parse_template_param`: required `typename`/`class` keyword
(with surrounding whitespace), a type, then an optional `= Type` default. -/
def parse_template_param (s : List Char) : PRes CType :=
  let u := ms0 s
  let afterKw : Option (List Char) :=
    if ("typename".toList).isPrefixOf u then some (ms0 (u.drop 8))
    else if ("class".toList).isPrefixOf u then some (ms0 (u.drop 5))
    else none
  match afterKw with
  | none => .err
  | some t =>
    match parse_cpp_type t with
    | .ok r ty =>
      let r1 := ms0 r
      -- opt((ws(char('=')), multispace0, parse_cpp_type))
      let v := ms0 r1
      (match v with
       | '=' :: w =>
         (match parse_cpp_type (ms0 (ms0 w)) with
          | .ok r2 _ => .ok r2 ty
          | .err => .ok r1 ty
          | .crash => .crash
          | .out => .out)
       | _ => .ok r1 ty)
    | .err => .err
    | .crash => .crash
    | .out => .out

/-- template.rs `parse_template`: `ws("template")`, `<`, comma-separated
template parameters, `ws('>')`. -/
def parse_template (s : List Char) : PRes (List CType) :=
  let u := ms0 s
  if ("template".toList).isPrefixOf u then
    let t := ms0 (u.drop 8)
    match t with
    | '<' :: t1 =>
      (match sep_list0 (tagP (",".toList)) parse_template_param (t1.length + 1) t1 with
       | .ok r params =>
         (match ms0 r with
          | '>' :: r2 => .ok (ms0 r2) params
          | _ => .err)
       | .err => .err
       | .crash => .crash
       | .out => .out)
    | _ => .err
  else .err

/-! ## Method parameters (src/parser/cpp/method.rs) -/

/-- cpp/method.rs `parse_function_pointer_param`:
`RetType ( * name ) ( T1, T2, ... )`. -/
def parse_function_pointer_param (s : List Char) : PRes CppMethodParam :=
  match parse_cpp_type (ms0 s) with
  | .ok r0 retTy =>
    let r1 := ms0 r0   -- trailing half of ws(parse_cpp_type)
    (match ms0 r1 with
     | '(' :: a =>
       (match ms0 a with
        | '*' :: b =>
          (match parse_str (ms0 b) with
           | .ok c _ =>
             (match ms0 c with
              | ')' :: d =>
                (match d with
                 | '(' :: e =>
                   (match sep_list0 (tagP (",".toList))
                       (fun w =>
                         match parse_cpp_type (ms0 w) with
                         | .ok r2 ty2 => .ok (ms0 r2) ty2
                         | .err => .err
                         | .crash => .crash
                         | .out => .out) (e.length + 1) e with
                    | .ok f params =>
                      (match f with
                       | ')' :: g =>
                         .ok g { name := none,
                                 ctype := CType.Function retTy params,
                                 default_value := none }
                       | _ => .err)
                    | .err => .err
                    | .crash => .crash
                    | .out => .out)
                 | _ => .err)
              | _ => .err)
           | .err => .err
           | .crash => .crash
           | .out => .out)
        | _ => .err)
     | _ => .err)
  | .err => .err
  | .crash => .crash
  | .out => .out

/-- cpp/method.rs `parse_simple_param`: a type, an optional name, an
optional `= Type` default value. -/
def parse_simple_param (s : List Char) : PRes CppMethodParam :=
  match parse_cpp_type (ms0 s) with
  | .ok r ty =>
    (match optP parse_ws_str r with
     | .ok r1 nm =>
       let v := ms0 r1
       (match v with
        | '=' :: w =>
          (match parse_cpp_type (ms0 w) with
           | .ok r2 dv => .ok r2 { name := nm, ctype := ty, default_value := some dv }
           | .err => .ok r1 { name := nm, ctype := ty, default_value := none }
           | .crash => .crash
           | .out => .out)
        | _ => .ok r1 { name := nm, ctype := ty, default_value := none })
     | .err => .err
     | .crash => .crash
     | .out => .out)
  | .err => .err
  | .crash => .crash
  | .out => .out

/-- cpp/method.rs `parse_cpp_method_param`. -/
def parse_cpp_method_param (s : List Char) : PRes CppMethodParam :=
  altP parse_function_pointer_param parse_simple_param s

/-- cpp/method.rs `parse_method_params`: `(`, whitespace, either a peeked
`)` (empty list) or a comma-separated parameter list, then `)` with
whitespace on both sides. -/
def parse_method_params (s : List Char) : PRes (List CppMethodParam) :=
  match s with
  | '(' :: t0 =>
    let t := ms0 t0
    let listRes : PRes (List CppMethodParam) :=
      match t with
      | ')' :: _ => .ok t []   -- map(peek(char(')')), |_| Vec::new())
      | _ =>
        sep_list0 (fun u =>
            match charP ',' (ms0 u) with
            | .ok r v => .ok (ms0 r) v
            | .err => .err
            | .crash => .crash
            | .out => .out) parse_cpp_method_param (t.length + 1) t
    match listRes with
    | .ok r params =>
      (match ms0 r with
       | ')' :: r2 => .ok (ms0 r2) params
       | _ => .err)
    | .err => .err
    | .crash => .crash
    | .out => .out
  | _ => .err

/-! ## parse_method (src/parser/generic/method.rs), instantiated at
`CppFunction` (cpp/method.rs) with the plain-C++ dialect (`NoAnnotation`,
comments as text) — the instantiation used by the header aggregator. -/

/-- `CppFunction` from cpp/method.rs; `CppFunction::method` stores the nine
trait arguments except the annotation list, which it discards. -/
structure CppFunction : Type where
  name : List Char
  return_type : Option CType
  template_params : List CType
  params : List CppMethodParam
  storage_qualifiers : List CppStorageQualifier
  post_param_qualifiers : List PostParamQualifier
  special : Option SpecialMember
  comment : Option (List Char)

/-- The return-type resolution match of parse_method (method.rs lines
133-141): `none` models the `unreachable!()` panic, which the source hits
whenever a classic return type other than `auto` meets a trailing-return
clause. -/
def resolve_return_type (classic trailing : Option CType) : Option (Option CType) :=
  match classic, trailing with
  | none, none => some none
  | none, some t => some (some t)
  | some c, none => some (some c)
  | some c, some t =>
    match c with
    | CType.Auto => some (some t)
    | _ => none

/-- `*x == CType::Path(vec!["void"])`: structural comparison against the
literal `Path(["void"])`. -/
def is_void_path : CType → Bool
  | CType.Path [seg] => seg = "void".toList
  | _ => false

/-- The `void` normalization of parse_method (method.rs lines 143-146). -/
def normalize_void (rt : Option CType) : Option CType :=
  match rt with
  | some x => if is_void_path x then none else some x
  | none => none

/-- method.rs `parse_method` (with `CppFunction`/`NoAnnotation`/text
comments): annotations, comment, storage qualifiers, template header,
declarator disambiguation (classic return type + name, or name alone),
parameter list, member-initializer list, trailing return, post-parameter
qualifiers, special member, brace block, then return-type resolution. -/
def parse_method (s : List Char) : PRes CppFunction :=
  match opt_many0_no_annot s with
  | .ok sA _ =>
    (match optP parse_comment sA with
     | .ok sB comment =>
       (match optP storage_qualifiers sB with
        | .ok sC storage =>
          (match optP parse_template sC with
           | .ok sD templates =>
             let nameBranch : List Char → PRes (Option CType × List Char) :=
               fun t =>
                 match parse_cpp_type t with
                 | .ok r ty =>
                   (match ms1 r with
                    | .ok r2 _ =>
                      (match method_name r2 with
                       | .ok r3 nm => .ok r3 (some ty, nm)
                       | .err => .err
                       | .crash => .crash
                       | .out => .out)
                    | .err => .err
                    | .crash => .crash
                    | .out => .out)
                 | .err => .err
                 | .crash => .crash
                 | .out => .out
             (match altP nameBranch
                 (fun t => (method_name t).pmap (fun nm => ((none : Option CType), nm))) sD with
              | .ok sE (classicTy, nm) =>
                (match parse_method_params sE with
                 | .ok sF params =>
                   let sG := ms0 sF
                   (match member_initializer_list sG with
                    | .ok sH _ =>
                      (match method_trailing_return sH with
                       | .ok sI trailingTy =>
                         (match post_param_qualifiers sI with
                          | .ok sJ postQs =>
                            (match optP special_member sJ with
                             | .ok sK special =>
                               (match optP (fun t =>
                                   parse_brace_block ((ms0 t).length + 1) (ms0 t)) sK with
                                | .ok sL _ =>
                                  (match resolve_return_type classicTy trailingTy with
                                   | some rt =>
                                     .ok sL
                                       { name := nm,
                                         return_type := normalize_void rt,
                                         template_params := templates.getD [],
                                         params := params,
                                         storage_qualifiers := storage.getD [],
                                         post_param_qualifiers := postQs,
                                         special := special,
                                         comment := comment }
                                   | none => .crash)  -- unreachable!() reached
                                | .err => .err
                                | .crash => .crash
                                | .out => .out)
                             | .err => .err
                             | .crash => .crash
                             | .out => .out)
                          | .err => .err
                          | .crash => .crash
                          | .out => .out)
                       | .err => .err
                       | .crash => .crash
                       | .out => .out)
                    | .err => .err
                    | .crash => .crash
                    | .out => .out)
                 | .err => .err
                 | .crash => .crash
                 | .out => .out)
              | .err => .err
              | .crash => .crash
              | .out => .out)
           | .err => .err
           | .crash => .crash
           | .out => .out)
        | .err => .err
        | .crash => .crash
        | .out => .out)
     | .err => .err
     | .crash => .crash
     | .out => .out)
  | .err => .err
  | .crash => .crash
  | .out => .out

/-! ## Member parser (src/parser/generic/member.rs, cpp/member.rs data) -/

inductive CppMemberModifier : Type where
  | Static | Const | Inline
deriving DecidableEq

/-- cpp/member.rs `impl From<&str> for CppMemberModifier`; `none` models the
`unimplemented!()` panic on any other string. -/
def CppMemberModifier_from : List Char → Option CppMemberModifier
  | s =>
    if s = "static".toList then some .Static
    else if s = "const".toList then some .Const
    else if s = "inline".toList then some .Inline
    else none

/-- member.rs `parse_modifier`: `preceded(multispace0, alt((tag("static"),
tag("const"), tag("inline"))))`. -/
def parse_modifier (s : List Char) : PRes (List Char) :=
  let u := ms0 s
  if ("static".toList).isPrefixOf u then .ok (u.drop 6) ("static".toList)
  else if ("const".toList).isPrefixOf u then .ok (u.drop 5) ("const".toList)
  else if ("inline".toList).isPrefixOf u then .ok (u.drop 6) ("inline".toList)
  else .err

/-- member.rs `parse_modifiers`: `many0(map(parse_modifier, From::from))`;
a `From` panic (impossible here, since the tags are exactly the recognized
strings) would surface as `.crash`. -/
def parse_modifiers (s : List Char) : PRes (List CppMemberModifier) :=
  many0 (fun t =>
    match parse_modifier t with
    | .ok r v =>
      (match CppMemberModifier_from v with
       | some m => .ok r m
       | none => .crash)
    | .err => .err
    | .crash => .crash
    | .out => .out) (s.length + 1) s

/-- `CppMember` from cpp/member.rs. -/
structure CppMember : Type where
  name : List Char
  ctype : CType
  default_value : Option CType
  comment : Option (List Char)
  modifiers : List CppMemberModifier

/-- generic/member.rs `parse_member` (with `CppMember`/`NoAnnotation`/text
comments): annotations, comment, modifiers, a type, a required name, and an
optional `{Type}` or `= Type` initializer. -/
def parse_member (s : List Char) : PRes CppMember :=
  match opt_many0_no_annot s with
  | .ok sA _ =>
    (match optP parse_comment sA with
     | .ok sB comment =>
       let sC := ms0 sB
       (match parse_modifiers sC with
        | .ok sD mods =>
          let sE := ms0 sD
          (match parse_cpp_type sE with
           | .ok sF ty =>
             (match parse_ws_str sF with
              | .ok sG nm =>
                let sH := ms0 sG
                -- opt(alt(delimited('{', ws type, '}'), preceded('=', ws type)))
                let dflt : PRes (Option CType) :=
                  match sH with
                  | '{' :: t =>
                    (match parse_cpp_type (ms0 t) with
                     | .ok r dv =>
                       (match ms0 r with
                        | '}' :: r2 => .ok r2 (some dv)
                        | _ => .ok sH none)
                     | .err => .ok sH none
                     | .crash => .crash
                     | .out => .out)
                  | '=' :: t =>
                    (match parse_cpp_type (ms0 t) with
                     | .ok r dv => .ok (ms0 r) (some dv)
                     | .err => .ok sH none
                     | .crash => .crash
                     | .out => .out)
                  | _ => .ok sH none
                (match dflt with
                 | .ok sI dv =>
                   .ok sI { name := nm, ctype := ty, default_value := dv,
                            comment := comment, modifiers := mods }
                 | .err => .err
                 | .crash => .crash
                 | .out => .out)
              | .err => .err
              | .crash => .crash
              | .out => .out)
           | .err => .err
           | .crash => .crash
           | .out => .out)
        | .err => .err
        | .crash => .crash
        | .out => .out)
     | .err => .err
     | .crash => .crash
     | .out => .out)
  | .err => .err
  | .crash => .crash
  | .out => .out

/-! ## Class parser (src/parser/generic/class.rs, instantiated at
`CppClass` with the plain-C++ dialect and no ignore statements, as the
header aggregator does with `parse_class(i, &vec![])`). -/

inductive InheritanceVisibility : Type where
  | Private | Protected | Public | Virtual | Empty
deriving DecidableEq

/-- class.rs `impl From<&str> for InheritanceVisibility` (total: any other
string maps to `Empty`). -/
def InheritanceVisibility_from (s : List Char) : InheritanceVisibility :=
  if s = "private".toList then .Private
  else if s = "protected".toList then .Protected
  else if s = "public".toList then .Public
  else if s = "virtual".toList then .Virtual
  else .Empty

/-- Functional model of `HashMap<InheritanceVisibility, Vec<T>>` with the
`entry(k).or_default().push(x)` access pattern: one list per visibility,
a missing key reading as the empty list. -/
structure AccMap (τ : Type) : Type where
  atPrivate : List τ
  atProtected : List τ
  atPublic : List τ
  atVirtual : List τ
  atEmpty : List τ

def AccMap.empty : AccMap τ := ⟨[], [], [], [], []⟩

def AccMap.get (m : AccMap τ) : InheritanceVisibility → List τ
  | .Private => m.atPrivate
  | .Protected => m.atProtected
  | .Public => m.atPublic
  | .Virtual => m.atVirtual
  | .Empty => m.atEmpty

/-- `map.entry(k).or_default().push(x)`. -/
def AccMap.push (m : AccMap τ) (k : InheritanceVisibility) (x : τ) : AccMap τ :=
  match k with
  | .Private => { m with atPrivate := m.atPrivate ++ [x] }
  | .Protected => { m with atProtected := m.atProtected ++ [x] }
  | .Public => { m with atPublic := m.atPublic ++ [x] }
  | .Virtual => { m with atVirtual := m.atVirtual ++ [x] }
  | .Empty => { m with atEmpty := m.atEmpty ++ [x] }

/-- `CppParentClass` from class.rs. -/
structure CppParentClass : Type where
  name : CType
  visibility : InheritanceVisibility

/-- `CppClass`: name, optional export/API token, inheritance list, and the
per-access-level method/member/nested-class collections. -/
inductive CppClass : Type where
  | mk : List Char → Option (List Char) → List CppParentClass →
      AccMap CppFunction → AccMap CppMember → AccMap CppClass → CppClass

def CppClass.name : CppClass → List Char
  | .mk n _ _ _ _ _ => n

def CppClass.api : CppClass → Option (List Char)
  | .mk _ a _ _ _ _ => a

def CppClass.parents : CppClass → List CppParentClass
  | .mk _ _ p _ _ _ => p

def CppClass.methods : CppClass → AccMap CppFunction
  | .mk _ _ _ m _ _ => m

def CppClass.members : CppClass → AccMap CppMember
  | .mk _ _ _ _ m _ => m

def CppClass.inner_classes : CppClass → AccMap CppClass
  | .mk _ _ _ _ _ i => i

/-- `ClassItem` from class.rs (the phantom variant omitted; `Comment`
carries the comment text). -/
inductive ClassItem : Type where
  | Ignore : ClassItem
  | Access : InheritanceVisibility → ClassItem
  | Method : CppFunction → ClassItem
  | Member : CppMember → ClassItem
  | Class : CppClass → ClassItem
  | Comment : List Char → ClassItem
  | End : ClassItem

/-- class.rs `access_specifier`: `public`/`private`/`protected` followed by
`:` and optional whitespace. -/
def access_specifier (s : List Char) : PRes InheritanceVisibility :=
  let probe : Option (Nat × List Char) :=
    if ("public".toList).isPrefixOf s then some (6, "public".toList)
    else if ("private".toList).isPrefixOf s then some (7, "private".toList)
    else if ("protected".toList).isPrefixOf s then some (9, "protected".toList)
    else none
  match probe with
  | some (n, w) =>
    (match s.drop n with
     | ':' :: r => .ok (ms0 r) (InheritanceVisibility_from w)
     | _ => .err)
  | none => .err

/-- class.rs `parse_inheritance_visibility`: one of the four keywords, or
`Empty` without consuming (after the leading whitespace, which is always
consumed). -/
def parse_inheritance_visibility (s : List Char) : List Char × InheritanceVisibility :=
  let t := ms0 s
  if ("private".toList).isPrefixOf t then (t.drop 7, .Private)
  else if ("protected".toList).isPrefixOf t then (t.drop 9, .Protected)
  else if ("public".toList).isPrefixOf t then (t.drop 6, .Public)
  else if ("virtual".toList).isPrefixOf t then (t.drop 7, .Virtual)
  else (t, .Empty)

/-- class.rs `parse_single_inheritance`: a visibility then `ws(type)`. -/
def parse_single_inheritance (s : List Char) : PRes CppParentClass :=
  let (s1, vis) := parse_inheritance_visibility s
  match parse_cpp_type (ms0 s1) with
  | .ok r ty => .ok (ms0 r) { name := ty, visibility := vis }
  | .err => .err
  | .crash => .crash
  | .out => .out

/-- class.rs `parse_inheritance`: `:` then a non-empty comma-separated list
of parents. -/
def parse_inheritance (s : List Char) : PRes (List CppParentClass) :=
  match ms0 s with
  | ':' :: t => sep_list1 (charP ',') parse_single_inheritance (t.length + 1) t
  | _ => .err

/-- class.rs `parse_class_identifier`: `class` or `struct`. -/
def parse_class_identifier (s : List Char) : PRes (List Char) :=
  if ("class".toList).isPrefixOf s then .ok (s.drop 5) ("class".toList)
  else if ("struct".toList).isPrefixOf s then .ok (s.drop 6) ("struct".toList)
  else .err

/-- class.rs `parse_ignore_template`: `opt(delimited('<', take_until(">"),
'>'))`, applied directly with a fallback to the untouched input. -/
def parse_ignore_template (s : List Char) : List Char :=
  match s with
  | '<' :: t =>
    (match split_until (">".toList) t with
     | some (_, r) => r.drop 1
     | none => s)
  | _ => s

/-- The `for item in items` fold of class.rs (lines 173-184 generic, lines
127-147 cpp): the running access level starts at the caller-supplied value
and is replaced by `Access` items; methods, members and nested classes are
pushed onto the list of the current level; `Ignore`/`Comment`/`End` items
are dropped. -/
def class_fold_step
    (st : InheritanceVisibility × AccMap CppFunction × AccMap CppMember × AccMap CppClass)
    (item : ClassItem) :
    InheritanceVisibility × AccMap CppFunction × AccMap CppMember × AccMap CppClass :=
  let (cur, ms, mems, ics) := st
  match item with
  | .Access a => (a, ms, mems, ics)
  | .Method m => (cur, ms.push cur m, mems, ics)
  | .Member mem => (cur, ms, mems.push cur mem, ics)
  | .Class c => (cur, ms, mems, ics.push cur c)
  | _ => (cur, ms, mems, ics)

def class_fold (items : List ClassItem)
    (st : InheritanceVisibility × AccMap CppFunction × AccMap CppMember × AccMap CppClass) :
    InheritanceVisibility × AccMap CppFunction × AccMap CppMember × AccMap CppClass :=
  items.foldl class_fold_step st

mutual

/-- class.rs `parse_class` (plain dialect, empty ignore list): comment,
annotations, template header, `class|struct`, one or two identifiers
(api + name or name alone), ignored `<...>` specialisation, early return
on `;` (forward declaration), optional inheritance, `{`, the body loop
until the matching `}`, the access-partition fold, optional `;`. -/
def parse_class : Nat → List Char → PRes CppClass
  | 0, _ => .out
  | fuel + 1, s =>
    match optP parse_comment s with
    | .ok sA _ =>
      (match opt_many0_no_annot sA with
       | .ok sB _ =>
         (match optP parse_template sB with
          | .ok sC _ =>
            (match parse_class_identifier sC with
             | .ok sD _ =>
               (match parse_ws_str sD with
                | .ok sE maybeApi =>
                  (match optP parse_ws_str sE with
                   | .ok sF maybeName =>
                     let api := match maybeName with
                       | some _ => some maybeApi
                       | none => none
                     let nm := match maybeName with
                       | some n => n
                       | none => maybeApi
                     let sG := ms0 (parse_ignore_template sF)
                     (match sG with
                      | ';' :: sH =>
                        -- forward declaration: empty collections, api dropped
                        .ok sH (CppClass.mk nm none [] AccMap.empty AccMap.empty AccMap.empty)
                      | _ =>
                        (match optP parse_inheritance sG with
                         | .ok sI parents =>
                           (match sI with
                            | '{' :: sJ =>
                              (match many_till (fun t => parse_class_item fuel t)
                                  (fun t => charP '}' (ms0 t)) fuel sJ with
                               | .ok sK items =>
                                 let (_, ms, mems, ics) :=
                                   class_fold items
                                     (InheritanceVisibility.Private,
                                      AccMap.empty, AccMap.empty, AccMap.empty)
                                 let sL := match sK with
                                   | ';' :: r => r
                                   | _ => sK
                                 .ok sL (CppClass.mk nm api (parents.getD []) ms mems ics)
                               | .err => .err
                               | .crash => .crash
                               | .out => .out)
                            | _ => .err)
                         | .err => .err
                         | .crash => .crash
                         | .out => .out))
                   | .err => .err
                   | .crash => .crash
                   | .out => .out)
                | .err => .err
                | .crash => .crash
                | .out => .out)
             | .err => .err
             | .crash => .crash
             | .out => .out)
          | .err => .err
          | .crash => .crash
          | .out => .out)
       | .err => .err
       | .crash => .crash
       | .out => .out)
    | .err => .err
    | .crash => .crash
    | .out => .out


/-- class.rs `parse_class_item` (empty ignore list): leading whitespace,
then the first of: an ignore statement (none configured — always fails),
`;` or `\n`, whitespace, an access specifier, a nested class, a method, a
member, a comment, or `}` with optional `;` (`End`). -/
def parse_class_item : Nat → List Char → PRes ClassItem
  | 0, _ => .out
  | fuel + 1, s =>
    let t := ms0 s
    -- ignore_statements is empty: that alternative always fails
    match t with
    | ';' :: r => .ok r ClassItem.Ignore
    | '\n' :: r => .ok r ClassItem.Ignore
    | _ =>
      match ms1 t with
      | .ok r _ => .ok r ClassItem.Ignore
      | _ =>
        match access_specifier t with
        | .ok r v => .ok r (ClassItem.Access v)
        | .crash => .crash
        | .out => .out
        | .err =>
          match parse_class fuel t with
          | .ok r c => .ok r (ClassItem.Class c)
          | .crash => .crash
          | .out => .out
          | .err =>
            match parse_method t with
            | .ok r m => .ok r (ClassItem.Method m)
            | .crash => .crash
            | .out => .out
            | .err =>
              match parse_member t with
              | .ok r m => .ok r (ClassItem.Member m)
              | .crash => .crash
              | .out => .out
              | .err =>
                match parse_comment t with
                | .ok r c => .ok r (ClassItem.Comment c)
                | .crash => .crash
                | .out => .out
                | .err =>
                  match t with
                  | '}' :: r =>
                    (match r with
                     | ';' :: r2 => .ok r2 ClassItem.End
                     | _ => .ok r ClassItem.End)
                  | _ => .err

end

/-! ## Namespace parser (src/parser/generic/namespace.rs, instantiated at
the concrete C++ shapes used by the header aggregator). -/

/-- The namespace aggregate built by the generic `Namespace::namespace`
constructor: name, nested namespaces, free functions, free variables,
classes and comments, in source order. -/
inductive CppNamespace : Type where
  | mk : List Char → List CppNamespace → List CppFunction → List CppMember →
      List CppClass → List (List Char) → CppNamespace

def CppNamespace.name : CppNamespace → List Char
  | .mk n _ _ _ _ _ => n

def CppNamespace.namespaces : CppNamespace → List CppNamespace
  | .mk _ n _ _ _ _ => n

def CppNamespace.functions : CppNamespace → List CppFunction
  | .mk _ _ f _ _ _ => f

def CppNamespace.variables : CppNamespace → List CppMember
  | .mk _ _ _ v _ _ => v

def CppNamespace.classes : CppNamespace → List CppClass
  | .mk _ _ _ _ c _ => c

def CppNamespace.comments : CppNamespace → List (List Char)
  | .mk _ _ _ _ _ c => c

/-- `NamespaceItem` from namespace.rs (phantom variant omitted). -/
inductive NamespaceItem : Type where
  | Ignore : NamespaceItem
  | Namespace : CppNamespace → NamespaceItem
  | Class : CppClass → NamespaceItem
  | Method : CppFunction → NamespaceItem
  | Variable : CppMember → NamespaceItem
  | Comment : List Char → NamespaceItem
  | End : NamespaceItem

/-- The `for item in items` loop of namespace.rs lines 106-115: five
ordered lists filled by item kind. -/
def namespace_fold (items : List NamespaceItem) :
    List CppNamespace × List CppFunction × List CppMember × List CppClass ×
      List (List Char) :=
  items.foldl
    (fun st item =>
      let (nss, fns, vars, cls, cms) := st
      match item with
      | .Namespace n => (nss ++ [n], fns, vars, cls, cms)
      | .Class c => (nss, fns, vars, cls ++ [c], cms)
      | .Method m => (nss, fns ++ [m], vars, cls, cms)
      | .Variable v => (nss, fns, vars ++ [v], cls, cms)
      | .Comment c => (nss, fns, vars, cls, cms ++ [c])
      | _ => st)
    ([], [], [], [], [])

mutual

/-- namespace.rs `parse_namespace`: `namespace`, `ws(name)`, `{`, the item
loop until `}`, then the aggregate. -/
def parse_namespace : Nat → List Char → PRes CppNamespace
  | 0, _ => .out
  | fuel + 1, s =>
    if ("namespace".toList).isPrefixOf s then
      match parse_str (ms0 (s.drop 9)) with
      | .ok r0 nm =>
        let r1 := ms0 r0
        (match r1 with
         | '{' :: r2 =>
           (match many_till (fun t => parse_namespace_item fuel t)
               (fun t => charP '}' (ms0 t)) fuel r2 with
            | .ok r3 items =>
              let (nss, fns, vars, cls, cms) := namespace_fold items
              .ok r3 (CppNamespace.mk nm nss fns vars cls cms)
            | .err => .err
            | .crash => .crash
            | .out => .out)
         | _ => .err)
      | .err => .err
      | .crash => .crash
      | .out => .out
    else .err

/-- namespace.rs `parse_namespace_item`: leading whitespace, then `;`,
a nested namespace, a class, a method, a member, a comment, or `}` with
optional `;` (`End`). -/
def parse_namespace_item : Nat → List Char → PRes NamespaceItem
  | 0, _ => .out
  | fuel + 1, s =>
    let t := ms0 s
    match t with
    | ';' :: r => .ok r NamespaceItem.Ignore
    | _ =>
      match parse_namespace fuel t with
      | .ok r n => .ok r (NamespaceItem.Namespace n)
      | .crash => .crash
      | .out => .out
      | .err =>
        match parse_class (t.length + 1) t with
        | .ok r c => .ok r (NamespaceItem.Class c)
        | .crash => .crash
        | .out => .out
        | .err =>
          match parse_method t with
          | .ok r m => .ok r (NamespaceItem.Method m)
          | .crash => .crash
          | .out => .out
          | .err =>
            match parse_member t with
            | .ok r m => .ok r (NamespaceItem.Variable m)
            | .crash => .crash
            | .out => .out
            | .err =>
              match parse_comment t with
              | .ok r c => .ok r (NamespaceItem.Comment c)
              | .crash => .crash
              | .out => .out
              | .err =>
                match t with
                | '}' :: r =>
                  (match r with
                   | ';' :: r2 => .ok r2 NamespaceItem.End
                   | _ => .ok r NamespaceItem.End)
                | _ => .err

end

/-! ## Alias, include, define, preprocessor (cpp/alias.rs, cpp/header.rs) -/

/-- `CppAlias` from alias.rs. -/
structure CppAlias : Type where
  name : List Char
  ctype : CType

/-- alias.rs `CppAlias::parse`: optional template header, `using`, at least
one space, a name, `ws('=')`, a type, optional whitespace, `;`. -/
def parse_alias (s : List Char) : PRes CppAlias :=
  match optP parse_template s with
  | .ok sA _ =>
    if ("using".toList).isPrefixOf sA then
      match ms1 (sA.drop 5) with
      | .ok sB _ =>
        (match parse_str sB with
         | .ok sC nm =>
           (match charP '=' (ms0 sC) with
            | .ok sD _ =>
              (match parse_cpp_type (ms0 sD) with
               | .ok sE ty =>
                 (match ms0 sE with
                  | ';' :: sF => .ok sF { name := nm, ctype := ty }
                  | _ => .err)
               | .err => .err
               | .crash => .crash
               | .out => .out)
            | .err => .err
            | .crash => .crash
            | .out => .out)
         | .err => .err
         | .crash => .crash
         | .out => .out)
      | .err => .err
      | .crash => .crash
      | .out => .out
    else .err
  | .err => .err
  | .crash => .crash
  | .out => .out

/-- header.rs `parse_include`: `#include` then a `"..."` or `<...>` path. -/
def parse_include (s : List Char) : PRes (List Char) :=
  let t := ms0 s
  if ("#include".toList).isPrefixOf t then
    let u := ms0 (t.drop 8)
    match u with
    | '"' :: v =>
      (match split_until ['"'] v with
       | some (path, r) => .ok (r.drop 1) path
       | none => .err)
    | '<' :: v =>
      (match split_until (">".toList) v with
       | some (path, r) => .ok (r.drop 1) path
       | none => .err)
    | _ => .err
  else .err

/-- header.rs `parse_define`: `#define`, at least one space, everything up
to (but excluding) the next newline; fails without a newline. -/
def parse_define (s : List Char) : PRes (List Char) :=
  if ("#define".toList).isPrefixOf s then
    match ms1 (s.drop 7) with
    | .ok t _ =>
      (match split_until ("\n".toList) t with
       | some (captured, r) => .ok r captured
       | none => .err)
    | .err => .err
    | .crash => .crash
    | .out => .out
  else .err

/-- header.rs `preprocessor_directive`: `#` then everything up to the next
newline (possibly empty, `take_till`). -/
def preprocessor_directive (s : List Char) : PRes (List Char) :=
  match s with
  | '#' :: t => .ok (t.dropWhile (fun c => !(c = '\n'))) (t.takeWhile (fun c => !(c = '\n')))
  | _ => .err

/-! ## Header aggregator (src/parser/cpp/header.rs) -/

/-- `CppHeaderItem` from header.rs. -/
inductive CppHeaderItem : Type where
  | Preprocessor : List Char → CppHeaderItem
  | Include : List Char → CppHeaderItem
  | Define : List Char → CppHeaderItem
  | Comment : List Char → CppHeaderItem
  | Declaration : CppMember → CppHeaderItem
  | Alias : CppAlias → CppHeaderItem
  | Function : CppFunction → CppHeaderItem
  | Class : CppClass → CppHeaderItem
  | Namespace : CppNamespace → CppHeaderItem
  | Ignore : CppHeaderItem

/-- `CppHeader` from header.rs. -/
structure CppHeader : Type where
  comments : List (List Char)
  includes : List (List Char)
  aliases : List CppAlias
  functions : List CppFunction
  declarations : List CppMember
  classes : List CppClass
  namespaces : List CppNamespace

def CppHeader.empty : CppHeader := ⟨[], [], [], [], [], [], []⟩

/-- header.rs `parse_header_item`: leading whitespace, then the first of:
a byte-order mark, a comment, `#include`, `#define`, another preprocessor
directive, a type alias, a class, a `;`-terminated member declaration, a
namespace, or a free function. -/
def parse_header_item (s : List Char) : PRes CppHeaderItem :=
  let t := ms0 s
  match charP (Char.ofNat 0xFEFF) t with
  | .ok r _ => .ok r CppHeaderItem.Ignore
  | .crash => .crash
  | .out => .out
  | .err =>
    match parse_comment t with
    | .ok r c => .ok r (CppHeaderItem.Comment c)
    | .crash => .crash
    | .out => .out
    | .err =>
      match parse_include t with
      | .ok r i => .ok r (CppHeaderItem.Include i)
      | .crash => .crash
      | .out => .out
      | .err =>
        match parse_define t with
        | .ok r d => .ok r (CppHeaderItem.Define d)
        | .crash => .crash
        | .out => .out
        | .err =>
          match preprocessor_directive t with
          | .ok r p => .ok r (CppHeaderItem.Preprocessor p)
          | .crash => .crash
          | .out => .out
          | .err =>
            match parse_alias t with
            | .ok r a => .ok r (CppHeaderItem.Alias a)
            | .crash => .crash
            | .out => .out
            | .err =>
              match parse_class (t.length + 1) t with
              | .ok r c => .ok r (CppHeaderItem.Class c)
              | .crash => .crash
              | .out => .out
              | .err =>
                match parse_member t with
                | .ok r m =>
                  (match r with
                   | ';' :: r2 => .ok r2 (CppHeaderItem.Declaration m)
                   | _ => declFallback t)
                | .crash => .crash
                | .out => .out
                | .err => declFallback t
where
  /-- The remaining alternatives after `terminated(parse_member, char(';'))`:
  namespace, then free function. -/
  declFallback (t : List Char) : PRes CppHeaderItem :=
    match parse_namespace (t.length + 1) t with
    | .ok r n => .ok r (CppHeaderItem.Namespace n)
    | .crash => .crash
    | .out => .out
    | .err =>
      match parse_method t with
      | .ok r m => .ok r (CppHeaderItem.Function m)
      | .err => .err
      | .crash => .crash
      | .out => .out

/-- The `match item` push of `CppHeader::parse` (header.rs lines 41-52):
`Ignore`, `Preprocessor` and `Define` are dropped, everything else is
appended to its list. -/
def header_push (h : CppHeader) : CppHeaderItem → CppHeader
  | .Ignore => h
  | .Preprocessor _ => h
  | .Include i => { h with includes := h.includes ++ [i] }
  | .Define _ => h
  | .Comment c => { h with comments := h.comments ++ [c] }
  | .Alias a => { h with aliases := h.aliases ++ [a] }
  | .Function f => { h with functions := h.functions ++ [f] }
  | .Class c => { h with classes := h.classes ++ [c] }
  | .Namespace n => { h with namespaces := h.namespaces ++ [n] }
  | .Declaration d => { h with declarations := h.declarations ++ [d] }

/-- The `loop` of `CppHeader::parse` (header.rs lines 38-58): repeatedly
parse one item and fold it into the header; the only exit is
`Err(e) => return Err(e)` — there is no success exit. -/
def CppHeader_parse_loop : Nat → List Char → CppHeader → PRes CppHeader
  | 0, _, _ => .out
  | fuel + 1, s, h =>
    match parse_header_item s with
    | .ok r item => CppHeader_parse_loop fuel r (header_push h item)
    | .err => .err
    | .crash => .crash
    | .out => .out

/-- header.rs `CppHeader::parse` (`impl Parsable for CppHeader`). -/
def CppHeader_parse (s : List Char) : PRes CppHeader :=
  CppHeader_parse_loop (s.length + 1) s CppHeader.empty

/-! ## Helper definitions for the statements and proofs -/

/-- The parser succeeded and the remaining input is no longer than `s`. -/
def okLe (x : PRes α) (s : List Char) : Prop :=
  ∃ r v, x = PRes.ok r v ∧ r.length ≤ s.length

/-- A parser that either fails recoverably or succeeds strictly consuming. -/
def goodLt (q : List Char → PRes γ) : Prop :=
  ∀ t, q t = .err ∨ ∃ r v, q t = .ok r v ∧ r.length < t.length

/-- On inputs of length at most `N`, the parser either fails recoverably or
succeeds without growing the input. -/
def goodLeOn (N : Nat) (q : List Char → PRes γ) : Prop :=
  ∀ t, t.length ≤ N → q t = .err ∨ ∃ r v, q t = .ok r v ∧ r.length ≤ t.length

def ClassItem.isAccess : ClassItem → Bool
  | .Access _ => true
  | _ => false

def items_methods (items : List ClassItem) : List CppFunction :=
  items.filterMap fun i =>
    match i with
    | .Method m => some m
    | _ => none

def items_members (items : List ClassItem) : List CppMember :=
  items.filterMap fun i =>
    match i with
    | .Member m => some m
    | _ => none

def items_classes (items : List ClassItem) : List CppClass :=
  items.filterMap fun i =>
    match i with
    | .Class c => some c
    | _ => none

/-- Push a whole list of values onto one bucket, in order. -/
def push_all (m : AccMap τ) (k : InheritanceVisibility) (xs : List τ) : AccMap τ :=
  xs.foldl (fun a x => a.push k x) m

/-- Member names per access level of a parsed class (diagnostic projection
for the end-to-end conjuncts). -/
def parsed_class_member_names (s : List Char) (v : InheritanceVisibility) :
    Option (List (List Char)) :=
  match parse_class (s.length + 1) s with
  | .ok _ c => some ((c.members.get v).map CppMember.name)
  | _ => none

def parsed_class_method_names (s : List Char) (v : InheritanceVisibility) :
    Option (List (List Char)) :=
  match parse_class (s.length + 1) s with
  | .ok _ c => some ((c.methods.get v).map CppFunction.name)
  | _ => none

/-- `class X { int a; public: int b; void f(); };` as a character list. -/
def c6_input : List Char :=
  "class X ".toList ++ ['{'] ++ "int a;public:int b;void f();".toList ++ ['}', ';']

/-- Sample method/member values for concrete instantiations. -/
def sample_method (nm : List Char) : CppFunction :=
  { name := nm, return_type := none, template_params := [], params := [],
    storage_qualifiers := [], post_param_qualifiers := [], special := none,
    comment := none }

def sample_member (nm : List Char) : CppMember :=
  { name := nm, ctype := CType.Path ["int".toList], default_value := none,
    comment := none, modifiers := [] }

/-! # Theorems -/

/-- C7: trailing `*` and `&` suffixes wrap the type left-to-right:
`T**` parses to Pointer(Pointer(Path[T])), `T&&` to
Reference(Reference(Path[T])), and `T*&` to Reference(Pointer(Path[T])). -/
theorem C7_ptr_ref_left_to_right :
    parse_cpp_type ("T**".toList) =
      .ok [] (CType.Pointer (CType.Pointer (CType.Path ["T".toList]))) ∧
    parse_cpp_type ("T&&".toList) =
      .ok [] (CType.Reference (CType.Reference (CType.Path ["T".toList]))) ∧
    parse_cpp_type ("T*&".toList) =
      .ok [] (CType.Reference (CType.Pointer (CType.Path ["T".toList]))) := by
  refine ⟨by rfl, by rfl, by rfl⟩

/-- C8: `const` is applied once whether it appears before or after the base
type: `const int&` and `int const&` both parse to
Reference(Const(Path[int])). -/
theorem C8_const_placement_invariance :
    parse_cpp_type ("const int&".toList) =
      .ok [] (CType.Reference (CType.Const (CType.Path ["int".toList]))) ∧
    parse_cpp_type ("int const&".toList) =
      .ok [] (CType.Reference (CType.Const (CType.Path ["int".toList]))) := by
  refine ⟨by rfl, by rfl⟩

/-- C9: a resolved return type of `void` is normalized away: `void f();`
and the constructor `C();` both yield a Method with no return type. -/
theorem C9_void_normalization :
    parse_method ("void f();".toList) = .ok (";".toList) (sample_method ("f".toList)) ∧
    parse_method ("C();".toList) = .ok (";".toList) (sample_method ("C".toList)) := by
  refine ⟨by rfl, by rfl⟩

/-- C2 (counterexample): the claim "NoAnnotation::parse consumes nothing —
the remaining input it returns equals the input it was given" is false at
input `"x"`: the source returns `Ok(("", NoAnnotation))`, so the remaining
input is empty, not `"x"`. -/
theorem C2_cex_consumes_everything :
    ¬ (NoAnnot_parse ['x'] = .ok ['x'] ⟨⟩) := by
  simp [NoAnnot_parse]

/-- C2 (amended): for every input string, NoAnnotation::parse succeeds and
returns empty metadata, but its remaining input is the EMPTY string — it
consumes its whole input rather than nothing.  (Every use site wraps it in
`opt(many0(...))`, whose infinite-loop check rejects the zero-consumption
repetition, so the composition consumes nothing overall.) -/
theorem C2_no_annot_always_empty_rest :
    (∀ s : List Char, NoAnnot_parse s = .ok [] ⟨⟩) ∧
    (∀ s : List Char, opt_many0_no_annot s = .ok s none) := by
  constructor
  · intro s; rfl
  · intro s
    cases s with
    | nil => rfl
    | cons c t =>
      simp [opt_many0_no_annot, optP, many0, NoAnnot_parse]

/-- C3: the special-member marker recognizes `= 0` (pure-virtual) and
`= default` (defaulted), but for the deleted marker the source matches the
literal `deleted` — C++'s `= delete` is rejected, and a method signature
ending in `= delete` comes back with no special marker and the marker text
left unconsumed. -/
theorem C3_special_member_deleted_spelling :
    special_member ("= 0".toList) = .ok [] SpecialMember.PureVirtual ∧
    special_member ("= default".toList) = .ok [] SpecialMember.Defaulted ∧
    special_member ("= deleted".toList) = .ok [] SpecialMember.Deleted ∧
    special_member ("= delete".toList) = .err ∧
    parse_method ("void f() = delete".toList) =
      .ok ("= delete".toList) (sample_method ("f".toList)) := by
  refine ⟨by rfl, by rfl, by rfl, by rfl, by rfl⟩

/-- C5: the claim "no input causes a panic; the unreachable!/unimplemented!
branches are never hit" is false: `int f() -> int` reaches the
`unreachable!()` in parse_method's return-type resolution (a classic
non-`auto` return type together with a trailing-return clause). -/
theorem C5_unreachable_is_reachable :
    parse_method ("int f() -> int".toList) = .crash := by rfl

/-- C4 (counterexample): the claim "whenever both a classic and a trailing
return type are present, the trailing type is stored in the resulting
Method" is false at `bool g() -> int`: both types are present but the
parser panics (`unreachable!()`) instead of producing a Method. -/
theorem C4_cex_nonauto_classic_panics :
    parse_method ("bool g() -> int".toList) = .crash := by rfl

/-- C4 (amended): when both a classic and a trailing return type are
present AND the classic type is the `auto` placeholder, the trailing type
is the one stored (a non-`auto` classic type with a trailing clause panics
instead); when neither is present the return type is none. -/
theorem C4_trailing_wins_only_for_auto :
    (∀ t : CType, resolve_return_type (some CType.Auto) (some t) = some (some t)) ∧
    resolve_return_type none none = some none ∧
    parse_method ("auto f() -> int;".toList) =
      .ok (";".toList)
        { sample_method ("f".toList) with return_type := some (CType.Path ["int".toList]) } := by
  refine ⟨fun t => by rfl, by rfl, by rfl⟩

/-- C1: the claim "CppHeader::parse consumes the input to exhaustion and
returns success with the assembled Header" is false: the parse loop's only
exit is `Err(e) => return Err(e)`, so it can never return `Ok` — on any
input, valid or not, the eventual `parse_header_item` failure (at latest at
exhaustion) is propagated.  Concretely, the fully recognized input
`#include "x.h"` parses one Include item and then fails, even though the
source's own unit test expects `Ok`. -/
theorem C1_header_parse_never_succeeds :
    (∀ (fuel : Nat) (s : List Char) (h : CppHeader) (r : List Char) (v : CppHeader),
        CppHeader_parse_loop fuel s h ≠ PRes.ok r v) ∧
    CppHeader_parse (("#include \"x.h\"").toList) = .err ∧
    parse_header_item (("#include \"x.h\"").toList) =
      .ok [] (CppHeaderItem.Include ("x.h".toList)) := by
  refine ⟨?_, by rfl, by rfl⟩
  intro fuel
  induction fuel with
  | zero =>
    intro s h r v
    simp [CppHeader_parse_loop]
  | succ f ih =>
    intro s h r v
    simp only [CppHeader_parse_loop]
    cases hI : parse_header_item s with
    | ok r2 item => exact ih r2 (header_push h item) r v
    | err => simp
    | crash => simp
    | out => simp

/-! ## C6: access partitioning of the class-body fold -/

theorem AccMap.get_push_same (m : AccMap τ) (k : InheritanceVisibility) (x : τ) :
    (m.push k x).get k = m.get k ++ [x] := by
  cases k <;> rfl

theorem AccMap.get_push_other (m : AccMap τ) {k v : InheritanceVisibility}
    (h : v ≠ k) (x : τ) : (m.push k x).get v = m.get v := by
  cases k <;> cases v <;> simp_all [AccMap.push, AccMap.get]

theorem AccMap.get_empty (v : InheritanceVisibility) :
    (AccMap.empty : AccMap τ).get v = [] := by
  cases v <;> rfl

theorem push_all_cons (m : AccMap τ) (k : InheritanceVisibility) (x : τ) (xs : List τ) :
    push_all m k (x :: xs) = push_all (m.push k x) k xs := rfl

theorem get_push_all_same (m : AccMap τ) (k : InheritanceVisibility) (xs : List τ) :
    (push_all m k xs).get k = m.get k ++ xs := by
  induction xs generalizing m with
  | nil => simp [push_all]
  | cons x xs ih =>
    rw [push_all_cons, ih, AccMap.get_push_same]
    simp

theorem get_push_all_other (m : AccMap τ) {k v : InheritanceVisibility}
    (h : v ≠ k) (xs : List τ) : (push_all m k xs).get v = m.get v := by
  induction xs generalizing m with
  | nil => rfl
  | cons x xs ih =>
    rw [push_all_cons, ih, AccMap.get_push_other m h]

theorem class_fold_append (a b : List ClassItem) (st) :
    class_fold (a ++ b) st = class_fold b (class_fold a st) := by
  simp [class_fold, List.foldl_append]

theorem class_fold_cons (i : ClassItem) (items : List ClassItem) (st) :
    class_fold (i :: items) st = class_fold items (class_fold_step st i) := rfl

/-- Over a run of items containing no access specifier, the class-body fold
keeps the running access level and appends every method, member and nested
class — in order — to that level's bucket. -/
theorem class_fold_no_access (items : List ClassItem)
    (h : ∀ i ∈ items, i.isAccess = false) (cur : InheritanceVisibility)
    (ms : AccMap CppFunction) (mems : AccMap CppMember) (ics : AccMap CppClass) :
    class_fold items (cur, ms, mems, ics) =
      (cur, push_all ms cur (items_methods items),
        push_all mems cur (items_members items),
        push_all ics cur (items_classes items)) := by
  induction items generalizing ms mems ics with
  | nil => simp [class_fold, items_methods, items_members, items_classes, push_all]
  | cons i rest ih =>
    have hi : i.isAccess = false := h i (by simp)
    have hrest : ∀ j ∈ rest, j.isAccess = false := fun j hj => h j (by simp [hj])
    cases i with
    | Access a => simp [ClassItem.isAccess] at hi
    | Method m =>
      rw [class_fold_cons]
      simp only [class_fold_step]
      rw [ih hrest]
      simp [items_methods, items_members, items_classes, push_all_cons]
    | Member m =>
      rw [class_fold_cons]
      simp only [class_fold_step]
      rw [ih hrest]
      simp [items_methods, items_members, items_classes, push_all_cons]
    | Class c =>
      rw [class_fold_cons]
      simp only [class_fold_step]
      rw [ih hrest]
      simp [items_methods, items_members, items_classes, push_all_cons]
    | Ignore =>
      rw [class_fold_cons]
      simp only [class_fold_step]
      rw [ih hrest]
      simp [items_methods, items_members, items_classes]
    | Comment c =>
      rw [class_fold_cons]
      simp only [class_fold_step]
      rw [ih hrest]
      simp [items_methods, items_members, items_classes]
    | End =>
      rw [class_fold_cons]
      simp only [class_fold_step]
      rw [ih hrest]
      simp [items_methods, items_members, items_classes]

/-- C6: in class/struct body parsing the running access level starts at
Private and changes only when an explicit access specifier item is folded;
every method, member and nested class is appended, in order, to the bucket
of the level current at its position.  For a body of the form
`pre ++ public: ++ post` (no other specifiers), the pre items land in the
Private buckets, the post items in the Public buckets, the Private buckets
are unaffected by the later specifier, and every other bucket is empty.
The final conjuncts run the full class parser on
`class X { int a; public: int b; void f(); };`: member `a` lands Private,
member `b` and method `f` land Public, Private has no methods. -/
theorem C6_access_partition (pre post : List ClassItem)
    (hpre : ∀ i ∈ pre, i.isAccess = false)
    (hpost : ∀ i ∈ post, i.isAccess = false) :
    (class_fold (pre ++ ClassItem.Access InheritanceVisibility.Public :: post)
        (InheritanceVisibility.Private, AccMap.empty, AccMap.empty, AccMap.empty)).1 =
      InheritanceVisibility.Public ∧
    ((class_fold (pre ++ ClassItem.Access InheritanceVisibility.Public :: post)
        (InheritanceVisibility.Private, AccMap.empty, AccMap.empty,
          AccMap.empty)).2.1.get InheritanceVisibility.Private = items_methods pre ∧
      (class_fold (pre ++ ClassItem.Access InheritanceVisibility.Public :: post)
        (InheritanceVisibility.Private, AccMap.empty, AccMap.empty,
          AccMap.empty)).2.1.get InheritanceVisibility.Public = items_methods post) ∧
    ((class_fold (pre ++ ClassItem.Access InheritanceVisibility.Public :: post)
        (InheritanceVisibility.Private, AccMap.empty, AccMap.empty,
          AccMap.empty)).2.2.1.get InheritanceVisibility.Private = items_members pre ∧
      (class_fold (pre ++ ClassItem.Access InheritanceVisibility.Public :: post)
        (InheritanceVisibility.Private, AccMap.empty, AccMap.empty,
          AccMap.empty)).2.2.1.get InheritanceVisibility.Public = items_members post) ∧
    ((class_fold (pre ++ ClassItem.Access InheritanceVisibility.Public :: post)
        (InheritanceVisibility.Private, AccMap.empty, AccMap.empty,
          AccMap.empty)).2.2.2.get InheritanceVisibility.Private = items_classes pre ∧
      (class_fold (pre ++ ClassItem.Access InheritanceVisibility.Public :: post)
        (InheritanceVisibility.Private, AccMap.empty, AccMap.empty,
          AccMap.empty)).2.2.2.get InheritanceVisibility.Public = items_classes post) ∧
    (∀ v : InheritanceVisibility, v ≠ InheritanceVisibility.Private →
      v ≠ InheritanceVisibility.Public →
      (class_fold (pre ++ ClassItem.Access InheritanceVisibility.Public :: post)
        (InheritanceVisibility.Private, AccMap.empty, AccMap.empty,
          AccMap.empty)).2.1.get v = [] ∧
      (class_fold (pre ++ ClassItem.Access InheritanceVisibility.Public :: post)
        (InheritanceVisibility.Private, AccMap.empty, AccMap.empty,
          AccMap.empty)).2.2.1.get v = [] ∧
      (class_fold (pre ++ ClassItem.Access InheritanceVisibility.Public :: post)
        (InheritanceVisibility.Private, AccMap.empty, AccMap.empty,
          AccMap.empty)).2.2.2.get v = []) ∧
    (∀ (items : List ClassItem)
        (st : InheritanceVisibility × AccMap CppFunction × AccMap CppMember × AccMap CppClass),
      (∀ i ∈ items, i.isAccess = false) → (class_fold items st).1 = st.1) ∧
    parsed_class_member_names c6_input InheritanceVisibility.Private =
      some ["a".toList] ∧
    parsed_class_member_names c6_input InheritanceVisibility.Public =
      some ["b".toList] ∧
    parsed_class_method_names c6_input InheritanceVisibility.Public =
      some ["f".toList] ∧
    parsed_class_method_names c6_input InheritanceVisibility.Private = some [] := by
  have hP : InheritanceVisibility.Private ≠ InheritanceVisibility.Public := by
    intro hcon; cases hcon
  have key :
      class_fold (pre ++ ClassItem.Access InheritanceVisibility.Public :: post)
        (InheritanceVisibility.Private, AccMap.empty, AccMap.empty, AccMap.empty) =
      (InheritanceVisibility.Public,
        push_all (push_all AccMap.empty InheritanceVisibility.Private (items_methods pre))
          InheritanceVisibility.Public (items_methods post),
        push_all (push_all AccMap.empty InheritanceVisibility.Private (items_members pre))
          InheritanceVisibility.Public (items_members post),
        push_all (push_all AccMap.empty InheritanceVisibility.Private (items_classes pre))
          InheritanceVisibility.Public (items_classes post)) := by
    rw [class_fold_append, class_fold_no_access pre hpre, class_fold_cons]
    simp only [class_fold_step]
    rw [class_fold_no_access post hpost]
  rw [key]
  refine ⟨rfl, ⟨?_, ?_⟩, ⟨?_, ?_⟩, ⟨?_, ?_⟩, ?_, ?_, by rfl, by rfl, by rfl, by rfl⟩
  · rw [get_push_all_other _ hP, get_push_all_same, AccMap.get_empty]; simp
  · rw [get_push_all_same, get_push_all_other _ (Ne.symm hP), AccMap.get_empty]; simp
  · rw [get_push_all_other _ hP, get_push_all_same, AccMap.get_empty]; simp
  · rw [get_push_all_same, get_push_all_other _ (Ne.symm hP), AccMap.get_empty]; simp
  · rw [get_push_all_other _ hP, get_push_all_same, AccMap.get_empty]; simp
  · rw [get_push_all_same, get_push_all_other _ (Ne.symm hP), AccMap.get_empty]; simp
  · intro v hvP hvPub
    refine ⟨?_, ?_, ?_⟩ <;>
      rw [get_push_all_other _ hvPub, get_push_all_other _ hvP, AccMap.get_empty]
  · intro items st hItems
    obtain ⟨cur, ms, mems, ics⟩ := st
    rw [class_fold_no_access items hItems]

/-- Witness for C6: instantiate the partition theorem with one method
before the `public:` specifier and one member after it. -/
theorem C6_access_partition_witness :
    ((∀ i ∈ [ClassItem.Method (sample_method ("a".toList))], ClassItem.isAccess i = false) ∧
      (∀ i ∈ [ClassItem.Member (sample_member ("b".toList))], ClassItem.isAccess i = false)) ∧
    ((class_fold ([ClassItem.Method (sample_method ("a".toList))] ++
        ClassItem.Access InheritanceVisibility.Public ::
          [ClassItem.Member (sample_member ("b".toList))])
        (InheritanceVisibility.Private, AccMap.empty, AccMap.empty, AccMap.empty)).1 =
      InheritanceVisibility.Public ∧
    ((class_fold ([ClassItem.Method (sample_method ("a".toList))] ++
        ClassItem.Access InheritanceVisibility.Public ::
          [ClassItem.Member (sample_member ("b".toList))])
        (InheritanceVisibility.Private, AccMap.empty, AccMap.empty,
          AccMap.empty)).2.1.get InheritanceVisibility.Private =
        items_methods [ClassItem.Method (sample_method ("a".toList))] ∧
      (class_fold ([ClassItem.Method (sample_method ("a".toList))] ++
        ClassItem.Access InheritanceVisibility.Public ::
          [ClassItem.Member (sample_member ("b".toList))])
        (InheritanceVisibility.Private, AccMap.empty, AccMap.empty,
          AccMap.empty)).2.1.get InheritanceVisibility.Public =
        items_methods [ClassItem.Member (sample_member ("b".toList))]) ∧
    ((class_fold ([ClassItem.Method (sample_method ("a".toList))] ++
        ClassItem.Access InheritanceVisibility.Public ::
          [ClassItem.Member (sample_member ("b".toList))])
        (InheritanceVisibility.Private, AccMap.empty, AccMap.empty,
          AccMap.empty)).2.2.1.get InheritanceVisibility.Private =
        items_members [ClassItem.Method (sample_method ("a".toList))] ∧
      (class_fold ([ClassItem.Method (sample_method ("a".toList))] ++
        ClassItem.Access InheritanceVisibility.Public ::
          [ClassItem.Member (sample_member ("b".toList))])
        (InheritanceVisibility.Private, AccMap.empty, AccMap.empty,
          AccMap.empty)).2.2.1.get InheritanceVisibility.Public =
        items_members [ClassItem.Member (sample_member ("b".toList))]) ∧
    ((class_fold ([ClassItem.Method (sample_method ("a".toList))] ++
        ClassItem.Access InheritanceVisibility.Public ::
          [ClassItem.Member (sample_member ("b".toList))])
        (InheritanceVisibility.Private, AccMap.empty, AccMap.empty,
          AccMap.empty)).2.2.2.get InheritanceVisibility.Private =
        items_classes [ClassItem.Method (sample_method ("a".toList))] ∧
      (class_fold ([ClassItem.Method (sample_method ("a".toList))] ++
        ClassItem.Access InheritanceVisibility.Public ::
          [ClassItem.Member (sample_member ("b".toList))])
        (InheritanceVisibility.Private, AccMap.empty, AccMap.empty,
          AccMap.empty)).2.2.2.get InheritanceVisibility.Public =
        items_classes [ClassItem.Member (sample_member ("b".toList))]) ∧
    (∀ v : InheritanceVisibility, v ≠ InheritanceVisibility.Private →
      v ≠ InheritanceVisibility.Public →
      (class_fold ([ClassItem.Method (sample_method ("a".toList))] ++
        ClassItem.Access InheritanceVisibility.Public ::
          [ClassItem.Member (sample_member ("b".toList))])
        (InheritanceVisibility.Private, AccMap.empty, AccMap.empty,
          AccMap.empty)).2.1.get v = [] ∧
      (class_fold ([ClassItem.Method (sample_method ("a".toList))] ++
        ClassItem.Access InheritanceVisibility.Public ::
          [ClassItem.Member (sample_member ("b".toList))])
        (InheritanceVisibility.Private, AccMap.empty, AccMap.empty,
          AccMap.empty)).2.2.1.get v = [] ∧
      (class_fold ([ClassItem.Method (sample_method ("a".toList))] ++
        ClassItem.Access InheritanceVisibility.Public ::
          [ClassItem.Member (sample_member ("b".toList))])
        (InheritanceVisibility.Private, AccMap.empty, AccMap.empty,
          AccMap.empty)).2.2.2.get v = []) ∧
    (∀ (items : List ClassItem)
        (st : InheritanceVisibility × AccMap CppFunction × AccMap CppMember × AccMap CppClass),
      (∀ i ∈ items, i.isAccess = false) → (class_fold items st).1 = st.1) ∧
    parsed_class_member_names c6_input InheritanceVisibility.Private =
      some ["a".toList] ∧
    parsed_class_member_names c6_input InheritanceVisibility.Public =
      some ["b".toList] ∧
    parsed_class_method_names c6_input InheritanceVisibility.Public =
      some ["f".toList] ∧
    parsed_class_method_names c6_input InheritanceVisibility.Private = some []) := by
  have hpre : ∀ i ∈ [ClassItem.Method (sample_method ("a".toList))],
      ClassItem.isAccess i = false := by
    intro i hi
    rcases List.mem_singleton.mp hi with rfl
    rfl
  have hpost : ∀ i ∈ [ClassItem.Member (sample_member ("b".toList))],
      ClassItem.isAccess i = false := by
    intro i hi
    rcases List.mem_singleton.mp hi with rfl
    rfl
  exact ⟨⟨hpre, hpost⟩, C6_access_partition _ _ hpre hpost⟩

/-! ## C10: totality in success of the type-expression recognizer -/

theorem ms0_le (s : List Char) : (ms0 s).length ≤ s.length :=
  length_dropWhile_le _ _

theorem opt_const_tag_le (s : List Char) : (opt_const_tag s).1.length ≤ s.length := by
  simp only [opt_const_tag]
  split
  · show ((ms0 s).drop 5).length ≤ s.length
    have := ms0_le s
    rw [List.length_drop]
    omega
  · exact le_rfl

theorem identifier_cases (s : List Char) :
    identifier s = .err ∨ ∃ r v, identifier s = .ok r v ∧ r.length ≤ s.length := by
  simp only [identifier, take_while1]
  split
  · exact Or.inl rfl
  · exact Or.inr ⟨s.dropWhile is_ident_char, s.takeWhile is_ident_char, rfl,
      length_dropWhile_le _ _⟩

theorem cpp_ident_cases (s : List Char) :
    cpp_ident s = .err ∨ ∃ r v, cpp_ident s = .ok r v ∧ r.length ≤ s.length := by
  have key : ∀ s1 : List Char, s1.length ≤ s.length →
      (identifier (ms0 s1) = .err ∨
        ∃ r v, identifier (ms0 s1) = .ok r v ∧ r.length ≤ s.length) := by
    intro s1 hs1
    rcases identifier_cases (ms0 s1) with h | ⟨r, v, heq, hle⟩
    · exact Or.inl h
    · exact Or.inr ⟨r, v, heq, le_trans hle (le_trans (ms0_le s1) hs1)⟩
  simp only [cpp_ident]
  split
  · exact key _ (by have := ms0_le s; rw [List.length_drop]; omega)
  · split
    · exact key _ (by have := ms0_le s; rw [List.length_drop]; omega)
    · exact key s le_rfl

theorem tagP_strict (pat : List Char) (hpat : pat ≠ []) : goodLt (tagP pat) := by
  intro t
  simp only [tagP]
  split
  · rename_i h
    refine Or.inr ⟨t.drop pat.length, pat, rfl, ?_⟩
    have hlen : pat.length ≤ t.length :=
      List.IsPrefix.length_le (List.isPrefixOf_iff_prefix.mp h)
    have hone : 1 ≤ pat.length := by
      cases pat with
      | nil => exact absurd rfl hpat
      | cons a b => simp
    rw [List.length_drop]; omega
  · exact Or.inl rfl

theorem charP_ms0_strict (c : Char) : goodLt (fun u => charP c (ms0 u)) := by
  intro t
  show charP c (ms0 t) = .err ∨ _
  simp only [charP]
  split
  · rename_i x r hm
    split
    · rename_i hx
      refine Or.inr ⟨r, c, rfl, ?_⟩
      have := ms0_le t
      rw [hm] at this
      simp only [List.length_cons] at this
      omega
    · exact Or.inl rfl
  · exact Or.inl rfl

theorem sep_list0_loop_ok {β γ : Type} (sep : List Char → PRes β)
    (p : List Char → PRes γ) (N : Nat) (hsep : goodLt sep) (hp : goodLeOn N p) :
    ∀ (fuel : Nat) (s : List Char) (acc : List γ), s.length ≤ N → s.length < fuel →
      ∃ r vs, sep_list0_loop sep p fuel s acc = .ok r vs ∧ r.length ≤ s.length := by
  intro fuel
  induction fuel with
  | zero => intro s acc _ h; omega
  | succ f ih =>
    intro s acc hN hf
    rcases hsep s with hserr | ⟨s1, b, hseq, hslt⟩
    · exact ⟨s, acc, by simp only [sep_list0_loop, hserr], le_rfl⟩
    · have hne : ¬ (s1.length = s.length) := by omega
      rcases hp s1 (by omega) with hperr | ⟨s2, v, hpeq, hple⟩
      · refine ⟨s, acc, ?_, le_rfl⟩
        simp only [sep_list0_loop, hseq, hne, if_false, hperr]
      · obtain ⟨r, vs, hrec, hrle⟩ := ih s2 (acc ++ [v]) (by omega) (by omega)
        refine ⟨r, vs, ?_, by omega⟩
        simp only [sep_list0_loop, hseq, hne, if_false, hpeq, hrec]

theorem sep_list0_ok {β γ : Type} (sep : List Char → PRes β)
    (p : List Char → PRes γ) (N : Nat) (hsep : goodLt sep) (hp : goodLeOn N p)
    (fuel : Nat) (s : List Char) (hN : s.length ≤ N) (hf : s.length < fuel) :
    ∃ r vs, sep_list0 sep p fuel s = .ok r vs ∧ r.length ≤ s.length := by
  rcases hp s hN with hperr | ⟨s1, v, hpeq, hple⟩
  · exact ⟨s, [], by simp only [sep_list0, hperr], le_rfl⟩
  · obtain ⟨r, vs, hrec, hrle⟩ :=
      sep_list0_loop_ok sep p N hsep hp fuel s1 [v] (by omega) (by omega)
    exact ⟨r, vs, by simp only [sep_list0, hpeq, hrec], by omega⟩

theorem many0_ok {γ : Type} (p : List Char → PRes γ) (hp : goodLt p) :
    ∀ (fuel : Nat) (s : List Char), s.length < fuel →
      ∃ r vs, many0 p fuel s = .ok r vs ∧ r.length ≤ s.length := by
  intro fuel
  induction fuel with
  | zero => intro s h; omega
  | succ f ih =>
    intro s hf
    rcases hp s with herr | ⟨s1, v, heq, hlt⟩
    · exact ⟨s, [], by simp only [many0, herr], le_rfl⟩
    · have hne : ¬ (s1.length = s.length) := by omega
      obtain ⟨r, vs, hrec, hrle⟩ := ih s1 (by omega)
      refine ⟨r, v :: vs, ?_, by omega⟩
      simp only [many0, heq, hne, if_false, hrec]

theorem many0_values {γ : Type} (p : List Char → PRes γ) (Q : γ → Prop)
    (hQ : ∀ t r v, p t = .ok r v → Q v) :
    ∀ (fuel : Nat) (s r : List Char) (vs : List γ),
      many0 p fuel s = .ok r vs → ∀ v ∈ vs, Q v := by
  intro fuel
  induction fuel with
  | zero =>
    intro s r vs h
    simp only [many0] at h
    exact PRes.noConfusion h
  | succ f ih =>
    intro s r vs h v hv
    simp only [many0] at h
    cases hps : p s with
    | ok s1 v1 =>
      rw [hps] at h
      by_cases hne : s1.length = s.length
      · simp [hne] at h
      · simp only [hne, if_false] at h
        cases hrec : many0 p f s1 with
        | ok s2 vs2 =>
          rw [hrec] at h
          have hvs : vs = v1 :: vs2 := by
            cases h
            rfl
          subst hvs
          rcases List.mem_cons.mp hv with rfl | hv2
          · exact hQ s s1 v hps
          · exact ih s1 s2 vs2 hrec v hv2
        | err => rw [hrec] at h; cases h
        | crash => rw [hrec] at h; cases h
        | out => rw [hrec] at h; cases h
    | err =>
      rw [hps] at h
      cases h
      simp at hv
    | crash => rw [hps] at h; exact PRes.noConfusion h
    | out => rw [hps] at h; exact PRes.noConfusion h

theorem apply_suffixes_total (cs : List Char) (h : ∀ c ∈ cs, c = '*' ∨ c = '&') :
    ∀ ty : CType, ∃ ty2, apply_suffixes ty cs = some ty2 := by
  induction cs with
  | nil => exact fun ty => ⟨ty, rfl⟩
  | cons c cs ih =>
    intro ty
    have hcs : ∀ x ∈ cs, x = '*' ∨ x = '&' := fun x hx => h x (by simp [hx])
    rcases h c (by simp) with rfl | rfl
    · simpa only [apply_suffixes, apply_suffix, if_pos rfl] using
        ih hcs (CType.Pointer ty)
    · have hne : ¬ ('&' = '*') := by decide
      simpa only [apply_suffixes, apply_suffix, hne, if_false, if_pos rfl] using
        ih hcs (CType.Reference ty)

theorem parse_type_atom_inner_ok (fuel : Nat) (s : List Char) (hf : s.length < fuel) :
    ∃ r v, parse_type_atom_inner fuel s = .ok r v ∧ r.length ≤ s.length := by
  have hsep : goodLt (tagP ("::".toList)) := tagP_strict _ (by decide)
  have hp : goodLeOn s.length cpp_ident := by
    intro t ht
    rcases cpp_ident_cases t with h | ⟨r, v, heq, hle⟩
    · exact Or.inl h
    · exact Or.inr ⟨r, v, heq, hle⟩
  obtain ⟨r, segs, hlist, hrle⟩ :=
    sep_list0_ok (tagP ("::".toList)) cpp_ident s.length hsep hp fuel s le_rfl hf
  simp only [parse_type_atom_inner, hlist, PRes.pmap]
  exact ⟨r, _, rfl, hrle⟩

theorem parse_type_atom_ok (fuel : Nat) (s : List Char) (hf : s.length < fuel) :
    ∃ r v, parse_type_atom fuel s = .ok r v ∧ r.length ≤ s.length := by
  rcases hpr : opt_const_tag s with ⟨s1, cb⟩
  have hs1 : s1.length ≤ s.length := by
    have := opt_const_tag_le s; rw [hpr] at this; exact this
  obtain ⟨s2, base, hinner, hs2⟩ := parse_type_atom_inner_ok fuel s1 (by omega)
  rcases hpr2 : opt_const_tag s2 with ⟨s3, ca⟩
  have hs3 : s3.length ≤ s2.length := by
    have := opt_const_tag_le s2; rw [hpr2] at this; exact this
  simp only [parse_type_atom, hpr, hinner, hpr2]
  exact ⟨s3, _, rfl, by omega⟩

theorem parse_member_access_ok (fuel : Nat) (s : List Char) (ty : CType)
    (hf : s.length < fuel) :
    ∃ r v, parse_member_access fuel s ty = .ok r v ∧ r.length ≤ s.length := by
  have hgood : goodLt (fun t =>
      match tagP ("::".toList) t with
      | .ok r _ => identifier r
      | .err => (.err : PRes (List Char))
      | .crash => .crash
      | .out => .out) := by
    intro t
    rcases tagP_strict ("::".toList) (by decide) t with htag | ⟨r1, w, htag, hlt⟩
    · exact Or.inl (by simp only [htag])
    · rcases identifier_cases r1 with hid | ⟨r2, v, hid, hle⟩
      · exact Or.inl (by simp only [htag, hid])
      · exact Or.inr ⟨r2, v, by simp only [htag, hid], by omega⟩
  obtain ⟨r, members, hlist, hrle⟩ := many0_ok _ hgood fuel s hf
  simp only [parse_member_access, hlist]
  exact ⟨r, _, rfl, hrle⟩

theorem parse_ptrs_refs_ok (fuel : Nat) (s : List Char) (ty : CType)
    (hf : s.length < fuel) :
    ∃ r v, parse_ptrs_refs fuel ty s = .ok r v ∧ r.length ≤ s.length := by
  have hgood : goodLt (fun t =>
      match ms0 t with
      | c :: r => if c = '*' || c = '&' then PRes.ok r c else .err
      | [] => (.err : PRes Char)) := by
    intro t
    cases hm : ms0 t with
    | nil => exact Or.inl (by simp only [hm])
    | cons c r =>
      by_cases hc : (c = '*' || c = '&') = true
      · refine Or.inr ⟨r, c, by simp only [hm, hc, if_true], ?_⟩
        have := ms0_le t
        rw [hm] at this
        simp only [List.length_cons] at this
        omega
      · exact Or.inl (by simp only [hm]; rw [if_neg hc])
  obtain ⟨r, suffixes, hlist, hrle⟩ := many0_ok _ hgood fuel s hf
  have hvals : ∀ v ∈ suffixes, v = '*' ∨ v = '&' := by
    refine many0_values _ _ ?_ fuel s r suffixes hlist
    intro t r2 v2 heq
    revert heq
    cases hm : ms0 t with
    | nil => intro heq; exact PRes.noConfusion heq
    | cons c rr =>
      by_cases hc : (c = '*' || c = '&') = true
      · intro heq
        simp only [hm, hc, if_true] at heq
        cases heq
        simpa using hc
      · intro heq
        simp only [hm] at heq
        rw [if_neg hc] at heq
        exact PRes.noConfusion heq
  obtain ⟨ty2, hap⟩ := apply_suffixes_total suffixes hvals ty
  exact ⟨r, ty2, by simp only [parse_ptrs_refs, hlist, hap], hrle⟩

theorem parse_generics_ok (pt : List Char → PRes CType) (fuel : Nat)
    (s : List Char) (ty : CType) (hfuel : s.length ≤ fuel)
    (hpt : ∀ u : List Char, u.length < s.length →
      ∃ r v, pt u = .ok r v ∧ r.length ≤ u.length) :
    ∃ r v, parse_generics pt fuel s ty = .ok r v ∧ r.length ≤ s.length := by
  cases hm : ms0 s with
  | nil =>
    simp only [parse_generics, hm]
    exact ⟨s, ty, rfl, le_rfl⟩
  | cons c t =>
    have hts : t.length < s.length := by
      have := ms0_le s; rw [hm] at this; simp only [List.length_cons] at this; omega
    by_cases hc : c = '<'
    · subst hc
      have hsep := charP_ms0_strict ','
      have hp : goodLeOn t.length (fun u => pt (ms0 u)) := by
        intro u hu
        right
        obtain ⟨r, v, heq, hle⟩ := hpt (ms0 u) (by have := ms0_le u; omega)
        exact ⟨r, v, heq, le_trans hle (ms0_le u)⟩
      obtain ⟨r, args, hlist, hrle⟩ :=
        sep_list0_ok _ _ t.length hsep hp fuel t le_rfl (by omega)
      cases hm2 : ms0 r with
      | nil =>
        simp only [parse_generics, hm, if_pos rfl, hlist, hm2]
        exact ⟨s, ty, rfl, le_rfl⟩
      | cons c2 r2 =>
        by_cases hc2 : c2 = '>'
        · subst hc2
          simp only [parse_generics, hm, if_pos rfl, hlist, hm2]
          refine ⟨r2, CType.Generic ty args, rfl, ?_⟩
          have := ms0_le r; rw [hm2] at this; simp only [List.length_cons] at this
          omega
        · simp only [parse_generics, hm, if_pos rfl, hlist, hm2]
          rw [if_neg hc2]
          exact ⟨s, ty, rfl, le_rfl⟩
    · simp only [parse_generics, hm]
      rw [if_neg hc]
      exact ⟨s, ty, rfl, le_rfl⟩

theorem parse_function_ok (pt : List Char → PRes CType) (fuel : Nat)
    (s : List Char) (ty : CType) (hfuel : s.length ≤ fuel)
    (hpt : ∀ u : List Char, u.length < s.length →
      ∃ r v, pt u = .ok r v ∧ r.length ≤ u.length) :
    ∃ r v, parse_function pt fuel s ty = .ok r v ∧ r.length ≤ s.length := by
  cases hm : ms0 s with
  | nil =>
    simp only [parse_function, hm]
    exact ⟨s, ty, rfl, le_rfl⟩
  | cons c t =>
    have hts : t.length < s.length := by
      have := ms0_le s; rw [hm] at this; simp only [List.length_cons] at this; omega
    by_cases hc : c = '('
    · subst hc
      have hsep := charP_ms0_strict ','
      have hp : goodLeOn t.length (fun u =>
          match pt (ms0 u) with
          | .ok r tyv =>
            if (ms0 r).takeWhile is_ident_char = [] then PRes.ok r tyv
            else .ok ((ms0 r).dropWhile is_ident_char) tyv
          | .err => .err
          | .crash => .crash
          | .out => .out) := by
        intro u hu
        right
        obtain ⟨r, v, heq, hle⟩ := hpt (ms0 u) (by have := ms0_le u; omega)
        have hrle : r.length ≤ u.length := le_trans hle (ms0_le u)
        by_cases hid : (ms0 r).takeWhile is_ident_char = []
        · exact ⟨r, v, by simp [heq, hid], hrle⟩
        · refine ⟨(ms0 r).dropWhile is_ident_char, v, ?_, ?_⟩
          · simp only [heq]
            rw [if_neg hid]
          · exact le_trans (le_trans (length_dropWhile_le _ _) (ms0_le r)) hrle
      obtain ⟨r, params, hlist, hrle⟩ :=
        sep_list0_ok _ _ t.length hsep hp fuel t le_rfl (by omega)
      cases hm2 : ms0 r with
      | nil =>
        simp only [parse_function, hm, if_pos rfl, hlist, hm2]
        exact ⟨s, ty, rfl, le_rfl⟩
      | cons c2 r2 =>
        by_cases hc2 : c2 = ')'
        · subst hc2
          simp only [parse_function, hm, if_pos rfl, hlist, hm2]
          refine ⟨r2, CType.Function ty params, rfl, ?_⟩
          have := ms0_le r; rw [hm2] at this; simp only [List.length_cons] at this
          omega
        · simp only [parse_function, hm, if_pos rfl, hlist, hm2]
          rw [if_neg hc2]
          exact ⟨s, ty, rfl, le_rfl⟩
    · simp only [parse_function, hm]
      rw [if_neg hc]
      exact ⟨s, ty, rfl, le_rfl⟩

theorem parse_type_ok :
    ∀ (fuel : Nat) (s : List Char), s.length < fuel →
      ∃ r v, parse_type fuel s = .ok r v ∧ r.length ≤ s.length := by
  intro fuel
  induction fuel with
  | zero => intro s h; omega
  | succ f ih =>
    intro s hf
    rcases hpr : opt_const_tag s with ⟨s1, lc⟩
    have hs1 : s1.length ≤ s.length := by
      have := opt_const_tag_le s; rw [hpr] at this; exact this
    obtain ⟨s2, base, hatom, hs2⟩ := parse_type_atom_ok (f + 1) s1 (by omega)
    obtain ⟨s3, ty1, hgen, hs3⟩ :=
      parse_generics_ok (fun u => parse_type f u) f s2 base (by omega)
        (fun u hu => ih u (by omega))
    obtain ⟨s4, ty2, hma, hs4⟩ := parse_member_access_ok (f + 1) s3 ty1 (by omega)
    obtain ⟨s5, ty3, hfun, hs5⟩ :=
      parse_function_ok (fun u => parse_type f u) f s4 ty2 (by omega)
        (fun u hu => ih u (by omega))
    rcases hpr2 : opt_const_tag s5 with ⟨s6, tc⟩
    have hs6 : s6.length ≤ s5.length := by
      have := opt_const_tag_le s5; rw [hpr2] at this; exact this
    obtain ⟨s7, ty4, hptr, hs7⟩ :=
      parse_ptrs_refs_ok (f + 1) s6 (if lc || tc then CType.Const ty3 else ty3)
        (by omega)
    refine ⟨s7, ty4, ?_, by omega⟩
    simp only [parse_type, hpr, hatom, hgen, hma, hfun, hpr2]
    exact hptr

/-- C10: the type-expression recognizer is total in success — for every
input string (the empty string and inputs starting with a non-type token
included) parse_cpp_type returns success, never a failure; on the empty
string, and on input starting with a token that begins no type, it returns
the empty Path and consumes nothing. -/
theorem C10_parse_cpp_type_total :
    (∀ s : List Char, ∃ r v, parse_cpp_type s = PRes.ok r v) ∧
    parse_cpp_type [] = .ok [] (CType.Path []) ∧
    parse_cpp_type ("+x".toList) = .ok ("+x".toList) (CType.Path []) := by
  refine ⟨?_, by rfl, by rfl⟩
  intro s
  obtain ⟨r, v, h, _⟩ := parse_type_ok (s.length + 1) s (by omega)
  exact ⟨r, v, h⟩
